import Mathlib

/-!
# Verification of `kolibri/content/utils/channel_import.py`

A shallow embedding of the channel-import engine, together with proofs about
its behaviour.  Python rows become partial maps from column names to optional
values; the SQLAlchemy sessions become explicit operation traces; Python
exceptions become an error type threaded through `Except`/pair results.

Conventions:
* A Python value that may be `None` is `Option Value`; a missing attribute and
  an attribute holding `None` are distinguished where the source distinguishes
  them (`hasattr` versus `getattr(x, c, None)`).
* The destination session is a trace of operations (`bulk_insert_mappings`,
  `merge`, `flush`) plus a committed/pending split; `commit` moves pending
  operations to committed, `rollback` discards them.
* Store-level failures (SQLAlchemyError) are modelled by a `Backend` that can
  be told to fail on an operation or on commit, mirroring the spec's external
  DestinationStore interface which may fail on any write or on commit.
-/

/-- A loosely typed column value (the content databases store strings,
integers and the like). -/
inductive Value where
  | vint : Int → Value
  | vstr : String → Value
  deriving DecidableEq, Repr

/-- A source row: a finite map from attribute names to optional values.
`(c, none)` models a column present with SQL NULL / Python `None`;
a missing key models an attribute the record does not have. -/
structure Row where
  attrs : List (String × Option Value)
  deriving DecidableEq, Repr

/-- Python `hasattr(record, c)`. -/
def Row.hasattr (r : Row) (c : String) : Bool :=
  (r.attrs.lookup c).isSome

/-- Python `getattr(record, c, None)`: the value if the attribute is present
(possibly `None`), and `None` when the attribute is missing. -/
def Row.getattr (r : Row) (c : String) : Option Value :=
  (r.attrs.lookup c).join

/-- A destination row handed to the session: only columns whose mapped value
was not `None` are present (`table_import` line 204 filters the rest out). -/
abbrev DestRow := List (String × Value)

/-- The Python exceptions relevant to `import_channel_data`:
`AttributeError` raised by the mapping machinery, and `SQLAlchemyError`
raised by the store layer. -/
inductive PyError where
  | attributeError (msg : String)
  | sqlalchemyError (msg : String)
  deriving DecidableEq, Repr

/-- The relevant fields of a SQLAlchemy column object, as tested by
`column_not_auto_integer_pk` (line 41). -/
structure ColumnDef where
  name : String
  autoincrement_auto : Bool
  primary_key : Bool
  python_type_int : Bool
  deriving DecidableEq, Repr

/-- `column_not_auto_integer_pk` (lines 37-41): a column survives the filter
unless it is an auto-incrementing integer primary key. -/
def column_not_auto_integer_pk (column : ColumnDef) : Bool :=
  !(column.autoincrement_auto && column.primary_key && column.python_type_int)

/-- `merge_models` (lines 31-35), by model name: the entity types whose rows
are merged (upserted) individually rather than bulk-inserted. -/
def merge_models : List String :=
  ["ContentTag", "LocalFile", "Language"]

/-- One operation applied to the destination session. -/
inductive SessionOp where
  | bulkInsert (model : String) (rows : List DestRow)
  | mergeOp (model : String) (row : DestRow)
  | flushOp
  deriving DecidableEq, Repr

/-- The mutable state of the `table_import` loop: session operations applied
so far, the `data_to_insert` buffer, and the `unflushed_rows` counter. -/
structure LoopState where
  ops : List SessionOp
  data_to_insert : List DestRow
  unflushed_rows : Nat
  deriving DecidableEq, Repr

/-- The destination session as seen by `import_channel_data`: operations of
previously committed transactions, and the pending (uncommitted) operations
of the current transaction. -/
structure Session where
  committed : List SessionOp
  pending : List SessionOp
  deriving DecidableEq, Repr

/-- Failure behaviour of the destination store.  The spec's DestinationStore
may raise a store-level failure (SQLAlchemyError) on any write or on commit;
a `Backend` decides which operations fail. -/
structure Backend where
  opFails : SessionOp → Bool
  commitFails : Bool

/-- A destination store on which no operation fails. -/
def okBackend : Backend :=
  { opFails := fun _ => false, commitFails := false }

/-- Apply one session operation: either the store raises `SQLAlchemyError`,
or the operation is appended to the trace. -/
def emit (backend : Backend) (st : LoopState) (op : SessionOp) :
    Except PyError LoopState :=
  if backend.opFails op then .error (.sqlalchemyError "statement failed")
  else .ok { st with ops := st.ops ++ [op] }

/-- Sizes of the bulk-insert calls in a session trace. -/
def bulk_sizes (ops : List SessionOp) : List Nat :=
  ops.filterMap fun op =>
    match op with
    | .bulkInsert _ rows => some rows.length
    | _ => none

/-- The rows merged individually in a session trace, in order. -/
def merge_rows (ops : List SessionOp) : List DestRow :=
  ops.filterMap fun op =>
    match op with
    | .mergeOp _ row => some row
    | _ => none

/-- All destination rows written by a session trace, in order: the rows of
every bulk insert and every individual merge. -/
def rows_written : List SessionOp → List DestRow
  | [] => []
  | .bulkInsert _ rows :: rest => rows ++ rows_written rest
  | .mergeOp _ row :: rest => row :: rows_written rest
  | .flushOp :: rest => rows_written rest

/-- The read-only source database: a map from model names to row lists.
`Bridge.get_class` raising `ClassNotFoundError` is modelled by `none`. -/
structure SourceDB where
  tables : List (String × List Row)

/-- `self.source.get_class(model)`, with `ClassNotFoundError` as `none`
(`table_import` lines 189-192 convert that exception to `None`). -/
def SourceDB.get_class (db : SourceDB) (model : String) : Option (List Row) :=
  db.tables.lookup model

/-- One entry of a `schema_mapping`: the optional `per_row` column mappings
and the optional `per_table` generator name. -/
structure ModelMapping where
  per_row : Option (List (String × String))
  per_table : Option String
  deriving DecidableEq, Repr

/-- The state of a `ChannelImport` instance that `import_channel_data`
consults: the declared model order, the schema mapping, the named computed
methods (row → value) and named table generators, the source database, and
the destination tables' column definitions. -/
structure ImportSelf where
  content_models : List String
  schema_mapping : List (String × ModelMapping)
  methods : List (String × (Row → Option Value))
  tableMethods : List (String × (Option (List Row) → List Row))
  source : SourceDB
  destColumns : String → List ColumnDef

/-- `generate_row_mapper` (lines 133-163).  With no mappings the column is
read straight off the record; with a mapping naming another attribute of the
record that attribute's value is returned; otherwise a method of the import
class is invoked on the record; otherwise `AttributeError` is raised. -/
def generate_row_mapper (self : ImportSelf) (mappings : Option (List (String × String))) :
    Row → String → Except PyError (Option Value) :=
  fun record column =>
    match (mappings.getD []).lookup column with
    | some col_map =>
      if record.hasattr col_map then .ok (record.getattr col_map)
      else
        match self.methods.lookup col_map with
        | some f => .ok (f record)
        | none =>
          .error (.attributeError "Column mapping specified but no valid column name or method found")
    | none => .ok (record.getattr column)

/-- `base_table_mapper` (lines 165-169): all rows of the source table, or the
empty list when the table does not exist in the source database. -/
def base_table_mapper (SourceRecord : Option (List Row)) : List Row :=
  SourceRecord.getD []

/-- `generate_table_mapper` (lines 171-180). -/
def generate_table_mapper (self : ImportSelf) (table_map : Option String) :
    Except PyError (Option (List Row) → List Row) :=
  match table_map with
  | none => .ok base_table_mapper
  | some name =>
    match self.tableMethods.lookup name with
    | some f => .ok f
    | none => .error (.attributeError "Table mapping specified but no valid method found")

/-- The dict comprehension of `table_import` (lines 203-205): one destination
row, keeping only the columns whose mapped value is not `None`; a mapper
failure propagates. -/
def build_data (row_mapper : Row → String → Except PyError (Option Value))
    (record : Row) : List String → Except PyError DestRow
  | [] => .ok []
  | c :: cs =>
    match row_mapper record c with
    | .error e => .error e
    | .ok none => build_data row_mapper record cs
    | .ok (some v) =>
      match build_data row_mapper record cs with
      | .error e => .error e
      | .ok rest => .ok ((c, v) :: rest)

/-- The row loop of `table_import` (lines 202-220).  Merge-designated rows
are merged into the session immediately; other rows are buffered; the shared
`unflushed_rows` counter triggers, at 10000, a bulk insert of the buffer (for
non-merge models), a session flush, and a counter reset.  On failure the
state reached so far is returned together with the raised error. -/
def table_import_loop (backend : Backend) (model : String) (merge : Bool)
    (columns : List String) (row_mapper : Row → String → Except PyError (Option Value)) :
    List Row → LoopState → Option PyError × LoopState
  | [], st => (none, st)
  | record :: rest, st =>
    match build_data row_mapper record columns with
    | .error e => (some e, st)
    | .ok data =>
      match
        (if merge then emit backend st (.mergeOp model data)
         else .ok { st with data_to_insert := st.data_to_insert ++ [data] }) with
      | .error e => (some e, st)
      | .ok st1 =>
        let st2 := { st1 with unflushed_rows := st1.unflushed_rows + 1 }
        if st2.unflushed_rows = 10000 then
          match
            (if merge = false then
              match emit backend st2 (.bulkInsert model st2.data_to_insert) with
              | .error e => .error e
              | .ok stb => .ok { stb with data_to_insert := [] }
             else .ok st2 : Except PyError LoopState) with
          | .error e => (some e, st2)
          | .ok st3 =>
            match emit backend st3 .flushOp with
            | .error e => (some e, st3)
            | .ok st4 =>
              table_import_loop backend model merge columns row_mapper rest
                { st4 with unflushed_rows := 0 }
        else table_import_loop backend model merge columns row_mapper rest st2

/-- The column-name list computed at line 199 of `table_import`: the
destination table's columns with auto-incrementing integer primary keys
filtered out. -/
def dest_columns (self : ImportSelf) (model : String) : List String :=
  ((self.destColumns model).filter column_not_auto_integer_pk).map (·.name)

/-- `table_import` (lines 182-223).  Computes the destination columns with
auto-incrementing integer primary keys filtered out, fetches the source rows
through the table mapper, runs the row loop, and finally bulk-inserts any
rows still buffered (non-merge models only).  Returns the raised error (if
any), the session operations applied, and the final `unflushed_rows`. -/
def table_import (self : ImportSelf) (backend : Backend) (model : String)
    (row_mapper : Row → String → Except PyError (Option Value))
    (table_mapper : Option (List Row) → List Row) (unflushed_rows : Nat) :
    Option PyError × List SessionOp × Nat :=
  match table_import_loop backend model (merge_models.contains model)
      (dest_columns self model) row_mapper (table_mapper (self.source.get_class model))
      { ops := [], data_to_insert := [], unflushed_rows := unflushed_rows } with
  | (some e, st) => (some e, st.ops, st.unflushed_rows)
  | (none, st) =>
    if merge_models.contains model = false ∧ st.data_to_insert ≠ [] then
      match emit backend st (.bulkInsert model st.data_to_insert) with
      | .error e => (some e, st.ops, st.unflushed_rows)
      | .ok st' => (none, st'.ops, st'.unflushed_rows)
    else (none, st.ops, st.unflushed_rows)

/-- The `for model in self.content_models` loop of `import_channel_data`
(lines 230-235): builds the row and table mappers from the schema mapping and
runs `table_import`, threading the `unflushed_rows` counter from one model to
the next and accumulating the session operations applied.  The first raised
error stops the loop; operations applied before it are kept (they have
already reached the session). -/
def import_models (self : ImportSelf) (backend : Backend) :
    List String → Nat → List SessionOp → Option PyError × List SessionOp × Nat
  | [], u, acc => (none, acc, u)
  | model :: rest, u, acc =>
    match generate_table_mapper self
        (((self.schema_mapping.lookup model).getD ⟨none, none⟩).per_table) with
    | .error e => (some e, acc, u)
    | .ok table_mapper =>
      match table_import self backend model
          (generate_row_mapper self
            (((self.schema_mapping.lookup model).getD ⟨none, none⟩).per_row))
          table_mapper u with
      | (some e, ops, u') => (some e, acc ++ ops, u')
      | (none, ops, u') => import_models self backend rest u' (acc ++ ops)

/-- `import_channel_data` (lines 225-242).  Runs every model's import inside
the destination transaction and commits.  Only `SQLAlchemyError` is caught:
it triggers `session.rollback()` (pending operations discarded) and is
re-raised.  Any other exception (such as the mapper's `AttributeError`)
propagates without the rollback being invoked; nothing is committed. -/
def import_channel_data (self : ImportSelf) (backend : Backend) (sess : Session) :
    Option PyError × Session :=
  match import_models self backend self.content_models 0 [] with
  | (none, ops, _) =>
    if backend.commitFails then
      (some (.sqlalchemyError "commit failed"), { sess with pending := [] })
    else
      (none, { committed := sess.committed ++ sess.pending ++ ops, pending := [] })
  | (some e, ops, _) =>
    match e with
    | .sqlalchemyError m => (some (.sqlalchemyError m), { sess with pending := [] })
    | .attributeError m =>
      (some (.attributeError m), { sess with pending := sess.pending ++ ops })

/-- `ChannelImport.schema_mapping` (lines 67-73): the base mapping stamps the
allocated tree id onto every `ContentNode` row. -/
def ChannelImport_schema_mapping : List (String × ModelMapping) :=
  [("ContentNode", { per_row := some [("tree_id", "get_tree_id")], per_table := none })]

/-- `ChannelImport.get_tree_id` (lines 93-94): returns the tree id allocated
once in `__init__` (line 91), independent of the source row. -/
def get_tree_id (tree_id : Int) : Row → Option Value :=
  fun _ => some (.vint tree_id)

/-- `last = len(ids) - 1` (line 113 of `find_hole_in_list`). -/
def fh_last (ids : List Int) : Nat :=
  ids.length - 1

/-- `middle = int(last/2 + 1)` (line 114 of `find_hole_in_list`). -/
def fh_middle (ids : List Int) : Nat :=
  fh_last ids / 2 + 1

/-- `find_hole_in_list` (lines 112-130): recursive bisection for the lowest
unused id above the first element.  Python list indexing and slicing become
`getD`/`take`/`drop`; `ids[-1]` is the last element. -/
def find_hole_in_list (ids : List Int) : Int :=
  if ids.getD (fh_middle ids) 0 - ids.getD 0 0 ≠ (fh_middle ids : Int) then
    if fh_middle ids = 1 then ids.getD 0 0 + 1
    else find_hole_in_list (ids.take (fh_middle ids))
  else if ids.getD (fh_last ids) 0 - ids.getD (fh_middle ids) 0
      ≠ (fh_last ids : Int) - (fh_middle ids : Int) then
    if fh_last ids - fh_middle ids = 1 then ids.getD (fh_middle ids) 0 + 1
    else find_hole_in_list (ids.drop (fh_middle ids))
  else ids.getD (fh_last ids) 0 + 1
termination_by ids.length
decreasing_by
  · rename_i h1 h2
    simp only [List.length_take, fh_middle, fh_last] at *
    omega
  · rcases ids with _ | ⟨a, tl⟩
    · simp [fh_middle, fh_last] at *
    · simp only [List.length_drop, List.length_cons, fh_middle, fh_last]
      omega

/-- `find_unique_tree_id` (lines 101-131), with the sorted distinct tree ids
fetched by `get_all_destination_tree_ids` as the argument. -/
def find_unique_tree_id (tree_ids : List Int) : Int :=
  if tree_ids = [] then 1
  else if tree_ids.length = 1 then
    (if tree_ids.getD 0 0 = 1 then 2 else 1)
  else find_hole_in_list tree_ids

/-- Adjacent strict ascent, the index form of sortedness with distinct
elements used throughout the tree-id proofs. -/
def StrictAscAt (ids : List Int) : Prop :=
  ∀ i, i + 1 < ids.length → ids.getD i 0 < ids.getD (i + 1) 0

/-- `v` is the least integer strictly above `a` that does not occur in
`ids`. -/
def IsLeastAbsentAbove (ids : List Int) (a v : Int) : Prop :=
  a < v ∧ v ∉ ids ∧ ∀ w : Int, a < w → w ∉ ids → v ≤ w

/-- `v` is the minimum positive integer absent from `ids`. -/
def IsMinMissingPositive (ids : List Int) (v : Int) : Prop :=
  IsLeastAbsentAbove ids 0 v

/-- The checksum-deduplication loop of `generate_local_file_from_file`
(lines 313-320), with the set of seen checksums as an accumulator. -/
def dedup_by_checksum : List Row → List (Option Value) → List Row
  | [], _ => []
  | record :: rest, checksum_record =>
    if record.getattr "checksum" ∈ checksum_record then
      dedup_by_checksum rest checksum_record
    else record :: dedup_by_checksum rest (record.getattr "checksum" :: checksum_record)

/-- `NoVersionChannelImport.generate_local_file_from_file` (lines 311-320).
The method ignores the `SourceRecord` it is handed and re-binds it to the
`File` model: `fileRows` is `self.source.session.query(File-class).all()`,
and rows with an already seen checksum are dropped. -/
def generate_local_file_from_file (fileRows : List Row)
    (SourceRecord : Option (List Row)) : List Row :=
  dedup_by_checksum fileRows []

/-- A source `License` record as used by `get_license` /
`get_license_name` / `get_license_description`. -/
structure LicenseRec where
  license_name : Option Value
  license_description : Option Value
  deriving DecidableEq, Repr

/-- `NoVersionChannelImport.get_license` (lines 325-333).  `src` is the
source `License` table keyed by id; `licenses` is the memoisation dict
(`self.licenses`, a class attribute, line 303); a falsy `license_id`
(`None` or `0`) short-circuits to `None`.  Returns the resolved record, the
updated cache, and the number of queries issued against the source (0 or 1),
so that caching behaviour is observable. -/
def get_license (src : List (Int × LicenseRec))
    (licenses : List (Int × Option LicenseRec)) (license_id : Option Int) :
    Option LicenseRec × List (Int × Option LicenseRec) × Nat :=
  match license_id with
  | none => (none, licenses, 0)
  | some i =>
    if i = 0 then (none, licenses, 0)
    else
      match licenses.lookup i with
      | some cached => (cached, licenses, 0)
      | none => (src.lookup i, licenses ++ [(i, src.lookup i)], 1)

/-- A sequence of `get_license` calls within one import, threading the cache
and totalling the queries issued against the source `License` table. -/
def run_license_lookups (src : List (Int × LicenseRec)) :
    List (Option Int) → List (Int × Option LicenseRec) →
    List (Int × Option LicenseRec) × Nat
  | [], cache => (cache, 0)
  | lid :: rest, cache =>
    match get_license src cache lid with
    | (_, cache', q) =>
      match run_license_lookups src rest cache' with
      | (cacheF, qs) => (cacheF, q + qs)

/-- Modelled from the spec: the DestinationStore's "single upsert-by-identity"
(its interface description), which is what SQLAlchemy `session.merge` performs
for merge-designated models.  `ident` is the identity (primary key) column:
an existing row with the same identity is replaced, otherwise the row is
appended. -/
def upsert_by_identity (ident : String) (table : List DestRow) (row : DestRow) :
    List DestRow :=
  if table.any (fun r => decide (r.lookup ident = row.lookup ident)) then
    table.map (fun r => if r.lookup ident = row.lookup ident then row else r)
  else table ++ [row]

/-- What the call `initialize_import_manager` produces for a given declared
minimum schema version. -/
inductive DispatchResult where
  | importClass (cls : String)
  | typeErrorNoneCall
  | futureSchemaError (msg : String)
  | invalidSchemaVersionError (msg : String)
  | nameErrorUnbound
  deriving DecidableEq, Repr

/-- Modelled from the spec: the schema-version sentinels and the current
schema version are imported from `kolibri.content.models`, which is outside
this module; the spec describes them as opaque comparable identifiers
(integer or named sentinel).  The concrete strings follow the published
constants. -/
def CONTENT_SCHEMA_VERSION : String := "2"

/-- Modelled from the spec: named sentinel, see `CONTENT_SCHEMA_VERSION`. -/
def VERSION_2 : String := "2"

/-- Modelled from the spec: named sentinel, see `CONTENT_SCHEMA_VERSION`. -/
def VERSION_1 : String := "1"

/-- Modelled from the spec: named sentinel, see `CONTENT_SCHEMA_VERSION`. -/
def NO_VERSION : String := "unversioned"

/-- Modelled from the spec: named sentinel, see `CONTENT_SCHEMA_VERSION`. -/
def V040BETA3 : String := "4.0.0b3"

/-- Modelled from the spec: named sentinel, see `CONTENT_SCHEMA_VERSION`. -/
def V020BETA1 : String := "2.0.0b1"

/-- The `mappings` dict (lines 352-358): schema version → import class. -/
def mappings : List (String × String) :=
  [(V020BETA1, "NoVersionChannelImport"),
   (V040BETA3, "NoVersionChannelImport"),
   (NO_VERSION, "NoVersionChannelImport"),
   (VERSION_1, "ChannelImport"),
   (VERSION_2, "ChannelImport")]

/-- The version dispatch of `initialize_import_manager` (lines 374-392) as
the code actually executes.  `dict.get` returns `None` for a missing key and
never raises `KeyError`, so the `except KeyError` handler is dead code: for
any unmapped version `ImportClass` is bound to `None` and the final call
`ImportClass(channel_id, ...)` fails with `TypeError`. -/
def import_manager_version_dispatch (mtable : List (String × String))
    (min_version : String) : DispatchResult :=
  match mtable.lookup min_version with
  | some cls => .importClass cls
  | none => .typeErrorNoneCall

/-- The accumulator loop of `parse_int_string`. -/
def digits_val : List Char → Option Nat → Option Nat
  | [], acc => acc
  | c :: cs, acc =>
    if c.isDigit then digits_val cs (some ((acc.getD 0) * 10 + (c.toNat - 48)))
    else none

/-- Python `int(s)` on a version string: an optional minus sign followed by
at least one digit; anything else raises `ValueError`, modelled as `none`. -/
def parse_int_string (s : String) : Option Int :=
  match s.data with
  | '-' :: rest => (digits_val rest none).map (fun n => -(n : Int))
  | l => (digits_val l none).map (fun n => (n : Int))

/-- The body of the `except KeyError` handler (lines 376-391) as written in
the source: the classification it would perform if it were reachable.
`int(...)` failing is `ValueError`, caught and converted to
`InvalidSchemaVersionError`; a numeric version equal to the current one would
fall through to an unbound `ImportClass` (`NameError`). -/
def schema_version_error_branch (current_version min_version : String) : DispatchResult :=
  match parse_int_string min_version with
  | none =>
    .invalidSchemaVersionError ("Tried to import invalid schema version " ++ min_version)
  | some version_number =>
    match parse_int_string current_version with
    | none =>
      .invalidSchemaVersionError ("Tried to import invalid schema version " ++ min_version)
    | some current =>
      if version_number > current then
        .futureSchemaError ("Tried to import schema version, " ++ min_version ++
          ", which is not supported by this version of Kolibri.")
      else if version_number < current then
        .invalidSchemaVersionError ("Tried to import unsupported schema version " ++ min_version)
      else .nameErrorUnbound

/-- The destination row a total (never failing) column resolver produces:
the columns, in order, whose resolved value is not `None`. -/
def pure_projection (g : String → Option Value) (cols : List String) : DestRow :=
  cols.filterMap fun c => (g c).map fun v => (c, v)

/-! ### Concrete inputs

Example rows, import-class states and backends used to instantiate the
theorems on concrete inputs. -/

/-- An example source row for an unmapped entity type. -/
def fooRow1 : Row := ⟨[("id", some (.vstr "f1")), ("title", some (.vstr "Alpha")), ("notes", none)]⟩

/-- A second example source row. -/
def fooRow2 : Row := ⟨[("id", some (.vstr "f2")), ("title", some (.vstr "Beta"))]⟩

/-- The example unmapped table. -/
def fooRows : List Row := [fooRow1, fooRow2]

/-- An example `ContentNode` source row (it has no `get_tree_id` column). -/
def cnRow1 : Row := ⟨[("id", some (.vstr "n1")), ("title", some (.vstr "Root"))]⟩

/-- The example `ContentNode` table. -/
def cnRows : List Row := [cnRow1]

/-- An example `ContentTag` source row. -/
def tagRow1 : Row := ⟨[("id", some (.vstr "t1")), ("tag_name", some (.vstr "maths"))]⟩

/-- An example import-class state: base schema mapping, a `get_tree_id`
method with tree id 7, and a small source database. -/
def exSelf : ImportSelf :=
  { content_models := ["ContentTag", "FooModel", "ContentNode"],
    schema_mapping := ChannelImport_schema_mapping,
    methods := [("get_tree_id", get_tree_id 7)],
    tableMethods := [],
    source := ⟨[("FooModel", fooRows), ("ContentNode", cnRows), ("ContentTag", [tagRow1])]⟩,
    destColumns := fun m =>
      if m = "ContentNode" then
        [⟨"id", false, true, false⟩, ⟨"title", false, false, false⟩,
         ⟨"tree_id", false, false, false⟩]
      else
        [⟨"id", false, true, false⟩, ⟨"tag_name", false, false, false⟩,
         ⟨"title", false, false, false⟩, ⟨"rowid", true, true, true⟩] }

/-- A schema-mapping entry whose `per_table` generator name resolves to no
method of the import class: using it raises `AttributeError`. -/
def brokenMapping : ModelMapping := { per_row := none, per_table := some "missing_method" }

/-- An import-class state whose second model has the broken mapping: the
first model's row is merged into the session, then the import fails with an
`AttributeError` that is not a `SQLAlchemyError`. -/
def exSelfC1 : ImportSelf :=
  { content_models := ["ContentTag", "BrokenModel"],
    schema_mapping := [("BrokenModel", brokenMapping)],
    methods := [], tableMethods := [],
    source := ⟨[("ContentTag", [tagRow1])]⟩,
    destColumns := fun _ => [⟨"id", false, true, false⟩, ⟨"tag_name", false, false, false⟩] }

/-- An import-class state with nothing to import. -/
def exSelfEmpty : ImportSelf :=
  { content_models := [], schema_mapping := [], methods := [], tableMethods := [],
    source := ⟨[]⟩, destColumns := fun _ => [] }

/-- A destination store whose commit fails with `SQLAlchemyError`. -/
def failCommitBackend : Backend := { opFails := fun _ => false, commitFails := true }

/-- An example computed method for the row mapper. -/
def exMethod : Row → Option Value := fun _ => some (.vstr "computed")

/-- Example `per_row` mappings exercising the rename, computed and invalid
cases. -/
def exMs5 : List (String × String) := [("b", "a"), ("c", "m"), ("d", "nope")]

/-- An example record for the row-mapper cases. -/
def exRec5 : Row := ⟨[("a", some (.vstr "A")), ("x", some (.vstr "X"))]⟩

/-- An import-class state holding only the computed method `m`. -/
def exSelf5 : ImportSelf :=
  { content_models := [], schema_mapping := [], methods := [("m", exMethod)],
    tableMethods := [], source := ⟨[]⟩, destColumns := fun _ => [] }

/-- Two destination rows with the same identity and different payloads
(the same tag imported twice). -/
def tagDest1 : DestRow := [("id", .vstr "t1"), ("tag_name", .vstr "maths")]

/-- The second import of the tag with identity `t1`. -/
def tagDest2 : DestRow := [("id", .vstr "t1"), ("tag_name", .vstr "science")]

/-- Example `File` rows with a duplicate checksum. -/
def fileRowA : Row := ⟨[("checksum", some (.vstr "abc")), ("extension", some (.vstr "mp4"))]⟩

/-- A `File` row with a fresh checksum. -/
def fileRowB : Row := ⟨[("checksum", some (.vstr "def")), ("extension", some (.vstr "pdf"))]⟩

/-- A `File` row repeating the first row's checksum. -/
def fileRowC : Row := ⟨[("checksum", some (.vstr "abc")), ("extension", some (.vstr "mp3"))]⟩

/-- The example `File` table for the deduplicating generator. -/
def exFileRows : List Row := [fileRowA, fileRowB, fileRowC]

/-- The license with id 1 in a first channel database. -/
def licA : LicenseRec := ⟨some (.vstr "CC BY"), some (.vstr "attribution")⟩

/-- The different license with id 1 in a second channel database. -/
def licB : LicenseRec := ⟨some (.vstr "Public Domain"), none⟩

/-- The first import's source `License` table. -/
def srcLicA : List (Int × LicenseRec) := [(1, licA)]

/-- The second import's source `License` table. -/
def srcLicB : List (Int × LicenseRec) := [(1, licB)]

/-! ## Theorems

First the tree-id allocator (`find_unique_tree_id`, claims C2 and C10), then
the mapping machinery and batching (claims C4-C8), the error handling of
`import_channel_data` (claim C1), the license cache (claim C9), and the
version dispatch (claim C3). -/

theorem getD_drop_eq (ids : List Int) (m i : Nat) :
    (ids.drop m).getD i 0 = ids.getD (m + i) 0 := by
  simp [List.getD_eq_getElem?_getD]

theorem getD_take_eq (ids : List Int) (m i : Nat) (h : i < m) :
    (ids.take m).getD i 0 = ids.getD i 0 := by
  simp [List.getD_eq_getElem?_getD, List.getElem?_take_of_lt h]

theorem mem_iff_getD (ids : List Int) (v : Int) :
    v ∈ ids ↔ ∃ i, i < ids.length ∧ ids.getD i 0 = v := by
  rw [List.mem_iff_getElem]
  constructor
  · rintro ⟨i, hi, he⟩
    exact ⟨i, hi, by simp [List.getD_eq_getElem?_getD, List.getElem?_eq_getElem hi, he]⟩
  · rintro ⟨i, hi, he⟩
    refine ⟨i, hi, ?_⟩
    simpa [List.getD_eq_getElem?_getD, List.getElem?_eq_getElem hi] using he

theorem strictAscAt_of_pairwise {ids : List Int} (h : ids.Pairwise (· < ·)) :
    StrictAscAt ids := by
  intro i hi
  rw [List.pairwise_iff_getElem] at h
  have hx := h i (i + 1) (by omega) hi (by omega)
  rw [List.getD_eq_getElem?_getD, List.getD_eq_getElem?_getD,
    List.getElem?_eq_getElem (by omega : i < ids.length), List.getElem?_eq_getElem hi]
  simpa using hx

theorem strictAscAt_take {ids : List Int} (hasc : StrictAscAt ids) (m : Nat) :
    StrictAscAt (ids.take m) := by
  intro i hi
  rw [List.length_take] at hi
  rw [getD_take_eq ids m (i + 1) (by omega), getD_take_eq ids m i (by omega)]
  exact hasc i (by omega)

theorem strictAscAt_drop {ids : List Int} (hasc : StrictAscAt ids) (m : Nat) :
    StrictAscAt (ids.drop m) := by
  intro i hi
  rw [List.length_drop] at hi
  rw [getD_drop_eq, getD_drop_eq]
  have hx := hasc (m + i) (by omega)
  rw [show m + (i + 1) = (m + i) + 1 by omega]
  exact hx

theorem strictAscAt_add_le {ids : List Int} (hasc : StrictAscAt ids) :
    ∀ (d a : Nat), a + d < ids.length → ids.getD a 0 + (d : Int) ≤ ids.getD (a + d) 0 := by
  intro d
  induction d with
  | zero => intro a _; simp
  | succ d ihd =>
    intro a h
    have h1 := ihd a (by omega)
    have h2 := hasc (a + d) (by omega)
    rw [show a + (d + 1) = (a + d) + 1 by omega]
    push_cast
    push_cast at h1
    omega

theorem strictAscAt_mono_le {ids : List Int} (hasc : StrictAscAt ids) {a b : Nat}
    (hab : a ≤ b) (hb : b < ids.length) : ids.getD a 0 ≤ ids.getD b 0 := by
  have hx := strictAscAt_add_le hasc (b - a) a (by omega)
  rw [show a + (b - a) = b by omega] at hx
  omega

theorem strictAscAt_mono_lt {ids : List Int} (hasc : StrictAscAt ids) {a b : Nat}
    (hab : a < b) (hb : b < ids.length) : ids.getD a 0 < ids.getD b 0 := by
  have hx := strictAscAt_add_le hasc (b - a) a (by omega)
  rw [show a + (b - a) = b by omega] at hx
  have hd : (1 : Int) ≤ ((b - a : Nat) : Int) := by
    have : 1 ≤ b - a := by omega
    exact_mod_cast this
  omega

theorem strictAscAt_contig {ids : List Int} (hasc : StrictAscAt ids) {a m : Nat}
    (ham : a ≤ m) (hm : m < ids.length)
    (hc : ids.getD m 0 - ids.getD a 0 = ((m - a : Nat) : Int)) :
    ∀ i, a ≤ i → i ≤ m → ids.getD i 0 = ids.getD a 0 + ((i - a : Nat) : Int) := by
  intro i h1 h2
  have l1 := strictAscAt_add_le hasc (i - a) a (by omega)
  rw [show a + (i - a) = i by omega] at l1
  have l2 := strictAscAt_add_le hasc (m - i) i (by omega)
  rw [show i + (m - i) = m by omega] at l2
  omega

theorem strictAscAt_gap_exists {ids : List Int} (hasc : StrictAscAt ids) {a m : Nat}
    (ham : a ≤ m) (hm : m < ids.length)
    (hgt : ((m - a : Nat) : Int) < ids.getD m 0 - ids.getD a 0) :
    ∃ i, a ≤ i ∧ i < m ∧ ids.getD i 0 + 2 ≤ ids.getD (i + 1) 0 := by
  by_contra hno
  push_neg at hno
  have key : ∀ d, a + d ≤ m → ids.getD (a + d) 0 ≤ ids.getD a 0 + (d : Int) := by
    intro d
    induction d with
    | zero => intro _; simp
    | succ d ihd =>
      intro hle
      have k1 := ihd (by omega)
      have k2 := hno (a + d) (by omega) (by omega)
      rw [show a + (d + 1) = (a + d) + 1 by omega]
      push_cast
      push_cast at k1
      omega
  have hk := key (m - a) (by omega)
  rw [show a + (m - a) = m by omega] at hk
  omega

theorem strictAscAt_mem_of_between {ids : List Int} (hasc : StrictAscAt ids) {a m : Nat}
    (ham : a ≤ m) (hm : m < ids.length)
    (hc : ids.getD m 0 - ids.getD a 0 = ((m - a : Nat) : Int))
    {w : Int} (h1 : ids.getD a 0 ≤ w) (h2 : w ≤ ids.getD m 0) : w ∈ ids := by
  have hle := strictAscAt_contig hasc ham hm hc
  have hk : (w - ids.getD a 0).toNat ≤ m - a := by omega
  have hcast : (((w - ids.getD a 0).toNat : Nat) : Int) = w - ids.getD a 0 := by omega
  have hcontig := hle (a + (w - ids.getD a 0).toNat) (by omega) (by omega)
  rw [mem_iff_getD]
  refine ⟨a + (w - ids.getD a 0).toNat, by omega, ?_⟩
  rw [hcontig, show a + (w - ids.getD a 0).toNat - a = (w - ids.getD a 0).toNat by omega]
  omega

theorem find_hole_in_list_spec_aux :
    ∀ (n : Nat) (ids : List Int), ids.length = n → 2 ≤ ids.length → StrictAscAt ids →
      IsLeastAbsentAbove ids (ids.getD 0 0) (find_hole_in_list ids) := by
  intro n
  induction n using Nat.strong_induction_on with
  | _ n IH =>
  intro ids hn h2 hasc
  have hmid : fh_middle ids = (ids.length - 1) / 2 + 1 := rfl
  have hlastd : fh_last ids = ids.length - 1 := rfl
  have hmid_lt : fh_middle ids < ids.length := by omega
  have hmid_le_last : fh_middle ids ≤ fh_last ids := by omega
  rw [find_hole_in_list.eq_def]
  split_ifs with hne1 hm1 hne2 hlm1
  · -- gap below, middle = 1: the hole is right after the head
    have hadd := strictAscAt_add_le hasc (fh_middle ids) 0 (by omega)
    rw [Nat.zero_add] at hadd
    have hgt : ids.getD 0 0 + (fh_middle ids : Int) < ids.getD (fh_middle ids) 0 := by
      omega
    rw [hm1] at hgt
    refine ⟨by omega, ?_, ?_⟩
    · intro hmem
      rw [mem_iff_getD] at hmem
      obtain ⟨i, hi, he⟩ := hmem
      rcases Nat.eq_zero_or_pos i with h0 | hposi
      · subst h0; omega
      · have hle : ids.getD 1 0 ≤ ids.getD i 0 := strictAscAt_mono_le hasc hposi hi
        omega
    · intro w hw _
      omega
  · -- gap below, middle ≥ 2: recurse into the lower half
    have hm2 : 2 ≤ fh_middle ids := by omega
    have hpre_len : (ids.take (fh_middle ids)).length = fh_middle ids := by
      rw [List.length_take]; omega
    have hIH := IH (fh_middle ids) (by omega) (ids.take (fh_middle ids)) hpre_len
      (by omega) (strictAscAt_take hasc (fh_middle ids))
    rw [getD_take_eq ids (fh_middle ids) 0 (by omega)] at hIH
    obtain ⟨hIH1, hIH2, hIH3⟩ := hIH
    have hadd := strictAscAt_add_le hasc (fh_middle ids) 0 (by omega)
    rw [Nat.zero_add] at hadd
    obtain ⟨i, hia, him, hgap⟩ :=
      strictAscAt_gap_exists hasc (Nat.zero_le (fh_middle ids)) hmid_lt (by omega)
    have hv0_gt : ids.getD 0 0 < ids.getD i 0 + 1 := by
      have := strictAscAt_mono_le hasc (Nat.zero_le i) (by omega)
      omega
    have hv0_notin : ids.getD i 0 + 1 ∉ ids.take (fh_middle ids) := by
      intro hmem
      rw [mem_iff_getD] at hmem
      obtain ⟨j, hj, he⟩ := hmem
      rw [hpre_len] at hj
      rw [getD_take_eq ids (fh_middle ids) j hj] at he
      rcases Nat.lt_or_ge j (i + 1) with hji | hji
      · have := strictAscAt_mono_le hasc (by omega : j ≤ i) (by omega)
        omega
      · have := strictAscAt_mono_le hasc hji (by omega)
        omega
    have hr_le : find_hole_in_list (ids.take (fh_middle ids)) ≤ ids.getD i 0 + 1 :=
      hIH3 _ hv0_gt hv0_notin
    have hr_lt : find_hole_in_list (ids.take (fh_middle ids)) < ids.getD (fh_middle ids) 0 := by
      have := strictAscAt_mono_le hasc (by omega : i + 1 ≤ fh_middle ids) hmid_lt
      omega
    refine ⟨hIH1, ?_, ?_⟩
    · intro hmem
      rw [mem_iff_getD] at hmem
      obtain ⟨j, hj, he⟩ := hmem
      rcases Nat.lt_or_ge j (fh_middle ids) with hjm | hjm
      · apply hIH2
        rw [mem_iff_getD]
        exact ⟨j, by omega, by rw [getD_take_eq ids (fh_middle ids) j hjm]; exact he⟩
      · have := strictAscAt_mono_le hasc hjm hj
        omega
    · intro w hw hwnot
      apply hIH3 w hw
      intro hmem
      exact hwnot (List.mem_of_mem_take hmem)
  · -- lower contiguous, gap above, exactly two elements above: hole after middle
    push_neg at hne1
    have hadd := strictAscAt_add_le hasc (fh_last ids - fh_middle ids) (fh_middle ids) (by omega)
    rw [show fh_middle ids + (fh_last ids - fh_middle ids) = fh_last ids by omega] at hadd
    have hgt : ids.getD (fh_middle ids) 0 + 2 ≤ ids.getD (fh_last ids) 0 := by
      rw [hlm1] at hadd
      have : ids.getD (fh_last ids) 0 - ids.getD (fh_middle ids) 0 ≠ 1 := by
        intro hx
        apply hne2
        rw [hx]
        push_cast
        omega
      push_cast at hadd
      omega
    have h0m : ids.getD 0 0 ≤ ids.getD (fh_middle ids) 0 :=
      strictAscAt_mono_le hasc (Nat.zero_le _) hmid_lt
    refine ⟨by omega, ?_, ?_⟩
    · intro hmem
      rw [mem_iff_getD] at hmem
      obtain ⟨j, hj, he⟩ := hmem
      rcases Nat.lt_or_ge j (fh_middle ids + 1) with hjm | hjm
      · have := strictAscAt_mono_le hasc (by omega : j ≤ fh_middle ids) hmid_lt
        omega
      · have hjl : j = fh_last ids := by omega
        subst hjl
        omega
    · intro w hw hwnot
      by_contra hcon
      push_neg at hcon
      apply hwnot
      exact strictAscAt_mem_of_between hasc (Nat.zero_le _) hmid_lt
        (by simpa using hne1) (le_of_lt hw) (by omega)
  · -- lower contiguous, gap above, more than two above: recurse into the upper half
    push_neg at hne1
    have hlm_pos : fh_middle ids < fh_last ids := by
      rcases Nat.lt_or_ge (fh_middle ids) (fh_last ids) with h | h
      · exact h
      · exfalso
        have hx : fh_middle ids = fh_last ids := by omega
        rw [hx] at hne2
        simp at hne2
    have hlm2 : 2 ≤ fh_last ids - fh_middle ids := by omega
    have hsuf_len : (ids.drop (fh_middle ids)).length = ids.length - fh_middle ids := by
      simp [List.length_drop]
    have hIH := IH (ids.length - fh_middle ids) (by omega) (ids.drop (fh_middle ids))
      hsuf_len (by omega) (strictAscAt_drop hasc (fh_middle ids))
    have hsuf0 : (ids.drop (fh_middle ids)).getD 0 0 = ids.getD (fh_middle ids) 0 := by
      rw [getD_drop_eq, Nat.add_zero]
    rw [hsuf0] at hIH
    obtain ⟨hIH1, hIH2, hIH3⟩ := hIH
    have h0m : ids.getD 0 0 ≤ ids.getD (fh_middle ids) 0 :=
      strictAscAt_mono_le hasc (Nat.zero_le _) hmid_lt
    refine ⟨by omega, ?_, ?_⟩
    · intro hmem
      rw [mem_iff_getD] at hmem
      obtain ⟨j, hj, he⟩ := hmem
      rcases Nat.lt_or_ge j (fh_middle ids) with hjm | hjm
      · have := strictAscAt_mono_lt hasc hjm hmid_lt
        omega
      · apply hIH2
        rw [mem_iff_getD]
        refine ⟨j - fh_middle ids, by omega, ?_⟩
        rw [getD_drop_eq, show fh_middle ids + (j - fh_middle ids) = j by omega]
        exact he
    · intro w hw hwnot
      rcases le_or_lt w (ids.getD (fh_middle ids) 0) with hwm | hwm
      · exfalso
        apply hwnot
        exact strictAscAt_mem_of_between hasc (Nat.zero_le _) hmid_lt
          (by simpa using hne1) (le_of_lt hw) hwm
      · apply hIH3 w hwm
        intro hmem
        exact hwnot (List.mem_of_mem_drop hmem)
  · -- both halves contiguous: append after the maximum
    push_neg at hne1 hne2
    have hlast_lt : fh_last ids < ids.length := by omega
    have h0last : ids.getD 0 0 ≤ ids.getD (fh_last ids) 0 :=
      strictAscAt_mono_le hasc (Nat.zero_le _) hlast_lt
    refine ⟨by omega, ?_, ?_⟩
    · intro hmem
      rw [mem_iff_getD] at hmem
      obtain ⟨j, hj, he⟩ := hmem
      have := strictAscAt_mono_le hasc (by omega : j ≤ fh_last ids) hlast_lt
      omega
    · intro w hw hwnot
      by_contra hcon
      push_neg at hcon
      apply hwnot
      rcases le_or_lt w (ids.getD (fh_middle ids) 0) with hwm | hwm
      · exact strictAscAt_mem_of_between hasc (Nat.zero_le _) hmid_lt
          (by simpa using hne1) (le_of_lt hw) hwm
      · have hc2 : ids.getD (fh_last ids) 0 - ids.getD (fh_middle ids) 0
            = ((fh_last ids - fh_middle ids : Nat) : Int) := by
          rw [hne2]
          push_cast
          omega
        exact strictAscAt_mem_of_between hasc hmid_le_last hlast_lt hc2
          (le_of_lt hwm) (by omega)

theorem IsLeastAbsentAbove_unique {ids : List Int} {a v w : Int}
    (h1 : IsLeastAbsentAbove ids a v) (h2 : IsLeastAbsentAbove ids a w) : v = w :=
  le_antisymm (h1.2.2 w h2.1 h2.2.1) (h2.2.2 v h1.1 h1.2.1)

theorem IsMinMissingPositive_intro {ids : List Int} {v : Int}
    (h1 : 0 < v) (h2 : v ∉ ids) (h3 : ∀ w : Int, 0 < w → w < v → w ∈ ids) :
    IsMinMissingPositive ids v := by
  refine ⟨h1, h2, ?_⟩
  intro w hw hwnot
  by_contra hcon
  push_neg at hcon
  exact hwnot (h3 w hw hcon)

theorem find_unique_tree_id_least (ids : List Int) (hasc : StrictAscAt ids)
    (hpos : ∀ x ∈ ids, 0 < x)
    (hh : ids = [] ∨ ids.length = 1 ∨ ids.getD 0 0 = 1) :
    IsMinMissingPositive ids (find_unique_tree_id ids) := by
  unfold find_unique_tree_id
  split_ifs with h1 h2 h3
  · refine ⟨by norm_num, by simp [h1], ?_⟩
    intro w hw _
    omega
  · rcases ids with _ | ⟨a, tl⟩
    · exact absurd rfl h1
    · rcases tl with _ | ⟨b, tl2⟩
      · simp only [List.getD_cons_zero] at h3
        subst h3
        refine ⟨by norm_num, by simp, ?_⟩
        intro w hw hnot
        rw [List.mem_singleton] at hnot
        omega
      · simp at h2
  · rcases ids with _ | ⟨a, tl⟩
    · exact absurd rfl h1
    · rcases tl with _ | ⟨b, tl2⟩
      · simp only [List.getD_cons_zero] at h3
        refine ⟨by norm_num, ?_, ?_⟩
        · intro hmem
          rw [List.mem_singleton] at hmem
          exact h3 hmem.symm
        · intro w hw _
          omega
      · simp at h2
  · have hlen1 : ids.length ≠ 0 := by
      intro hx
      exact h1 (List.length_eq_zero.mp hx)
    have hlen2 : 2 ≤ ids.length := by omega
    have hhead : ids.getD 0 0 = 1 := by
      rcases hh with h | h | h
      · exact absurd h h1
      · exact absurd h h2
      · exact h
    have hspec := find_hole_in_list_spec_aux ids.length ids rfl hlen2 hasc
    rw [hhead] at hspec
    obtain ⟨hs1, hs2, hs3⟩ := hspec
    refine ⟨by omega, hs2, ?_⟩
    intro w hw hwnot
    rcases eq_or_lt_of_le (show (1:Int) ≤ w by omega) with heq | hlt
    · exfalso
      apply hwnot
      rw [mem_iff_getD]
      exact ⟨0, by omega, by rw [hhead]; exact heq⟩
    · exact hs3 w hlt hwnot

theorem find_unique_tree_id_eq_of_min {ids : List Int} {v : Int}
    (hp : ids.Pairwise (· < ·)) (hpos : ∀ x ∈ ids, 0 < x)
    (hh : ids = [] ∨ ids.length = 1 ∨ ids.getD 0 0 = 1)
    (hv : IsMinMissingPositive ids v) : find_unique_tree_id ids = v :=
  IsLeastAbsentAbove_unique
    (find_unique_tree_id_least ids (strictAscAt_of_pairwise hp) hpos hh) hv

theorem find_unique_tree_id_two_three : find_unique_tree_id [2, 3] = 4 := by
  have hspec := find_hole_in_list_spec_aux 2 [2, 3] rfl (by norm_num)
    (strictAscAt_of_pairwise (by decide))
  have hv : IsLeastAbsentAbove [2, 3] (([2, 3] : List Int).getD 0 0) 4 := by
    refine ⟨by decide, by decide, ?_⟩
    intro w hw hnot
    have hw2 : (2 : Int) < w := by simpa using hw
    simp at hnot
    omega
  have heq : find_hole_in_list [2, 3] = 4 := IsLeastAbsentAbove_unique hspec hv
  simpa [find_unique_tree_id] using heq

/-- C2 (amended).  For every sorted sequence of distinct positive integers
that is empty, a singleton, or starts at 1, `find_unique_tree_id` returns the
minimum positive integer absent from the sequence; the seven concrete
examples of the claim all hold.  (For longer sequences that do not start at
1 the bisection never looks below the first element, see the
counterexample.) -/
theorem find_unique_tree_id_min_missing (ids : List Int)
    (hp : ids.Pairwise (· < ·)) (hpos : ∀ x ∈ ids, 0 < x)
    (hh : ids = [] ∨ ids.length = 1 ∨ ids.getD 0 0 = 1) :
    IsMinMissingPositive ids (find_unique_tree_id ids) ∧
    find_unique_tree_id [] = 1 ∧
    find_unique_tree_id [1] = 2 ∧
    find_unique_tree_id [2] = 1 ∧
    find_unique_tree_id [1, 2, 3] = 4 ∧
    find_unique_tree_id [1, 2, 4] = 3 ∧
    find_unique_tree_id [1, 3, 4] = 2 ∧
    find_unique_tree_id [1, 2, 3, 5, 6] = 4 := by
  refine ⟨find_unique_tree_id_least ids (strictAscAt_of_pairwise hp) hpos hh,
    by decide, by decide, by decide, ?_, ?_, ?_, ?_⟩
  · exact find_unique_tree_id_eq_of_min (by decide) (by decide) (by decide)
      (IsMinMissingPositive_intro (by norm_num) (by decide)
        (by intro w h1 h2; interval_cases w <;> decide))
  · exact find_unique_tree_id_eq_of_min (by decide) (by decide) (by decide)
      (IsMinMissingPositive_intro (by norm_num) (by decide)
        (by intro w h1 h2; interval_cases w <;> decide))
  · exact find_unique_tree_id_eq_of_min (by decide) (by decide) (by decide)
      (IsMinMissingPositive_intro (by norm_num) (by decide)
        (by intro w h1 h2; interval_cases w <;> decide))
  · exact find_unique_tree_id_eq_of_min (by decide) (by decide) (by decide)
      (IsMinMissingPositive_intro (by norm_num) (by decide)
        (by intro w h1 h2; interval_cases w <;> decide))

/-- C2 counterexample.  On the sorted distinct positive sequence `[2, 3]`
the function returns 4 (it never considers the hole before the first
element), which is not the minimum positive integer absent from the
sequence (that is 1). -/
theorem find_unique_tree_id_not_min_missing_cx :
    ¬ IsMinMissingPositive [2, 3] (find_unique_tree_id [2, 3]) := by
  rw [find_unique_tree_id_two_three]
  intro h
  have hx := h.2.2 1 (by norm_num) (by decide)
  omega

theorem find_unique_tree_id_min_missing_witness :
    IsMinMissingPositive [1, 3, 4] (find_unique_tree_id [1, 3, 4]) ∧
    find_unique_tree_id [] = 1 ∧
    find_unique_tree_id [1] = 2 ∧
    find_unique_tree_id [2] = 1 ∧
    find_unique_tree_id [1, 2, 3] = 4 ∧
    find_unique_tree_id [1, 2, 4] = 3 ∧
    find_unique_tree_id [1, 3, 4] = 2 ∧
    find_unique_tree_id [1, 2, 3, 5, 6] = 4 :=
  find_unique_tree_id_min_missing [1, 3, 4] (by decide) (by decide) (by decide)

/-- C10.  For every sorted strictly ascending sequence of positive integers,
`find_unique_tree_id` returns a positive integer that is not a member of the
sequence: the allocated tree id never collides with an existing one. -/
theorem find_unique_tree_id_fresh (ids : List Int)
    (hp : ids.Pairwise (· < ·)) (hpos : ∀ x ∈ ids, 0 < x) :
    0 < find_unique_tree_id ids ∧ find_unique_tree_id ids ∉ ids := by
  unfold find_unique_tree_id
  split_ifs with h1 h2 h3
  · subst h1
    exact ⟨by norm_num, by simp⟩
  · rcases ids with _ | ⟨a, tl⟩
    · exact absurd rfl h1
    · rcases tl with _ | ⟨b, tl2⟩
      · simp only [List.getD_cons_zero] at h3
        subst h3
        exact ⟨by norm_num, by simp⟩
      · simp at h2
  · rcases ids with _ | ⟨a, tl⟩
    · exact absurd rfl h1
    · rcases tl with _ | ⟨b, tl2⟩
      · simp only [List.getD_cons_zero] at h3
        refine ⟨by norm_num, ?_⟩
        intro hmem
        rw [List.mem_singleton] at hmem
        exact h3 hmem.symm
      · simp at h2
  · have hlen1 : ids.length ≠ 0 := by
      intro hx
      exact h1 (List.length_eq_zero.mp hx)
    have hlen2 : 2 ≤ ids.length := by omega
    have hspec := find_hole_in_list_spec_aux ids.length ids rfl hlen2
      (strictAscAt_of_pairwise hp)
    have hhead : 0 < ids.getD 0 0 := by
      apply hpos
      rw [mem_iff_getD]
      exact ⟨0, by omega, rfl⟩
    exact ⟨by have := hspec.1; omega, hspec.2.1⟩

theorem find_unique_tree_id_fresh_witness :
    0 < find_unique_tree_id [2, 3] ∧ find_unique_tree_id [2, 3] ∉ [2, 3] :=
  find_unique_tree_id_fresh [2, 3] (by decide) (by decide)

theorem rows_written_append (a b : List SessionOp) :
    rows_written (a ++ b) = rows_written a ++ rows_written b := by
  induction a with
  | nil => simp [rows_written]
  | cons op a ih =>
    cases op <;> simp [rows_written, ih]

theorem bulk_sizes_append (a b : List SessionOp) :
    bulk_sizes (a ++ b) = bulk_sizes a ++ bulk_sizes b := by
  simp [bulk_sizes, List.filterMap_append]

theorem merge_rows_append (a b : List SessionOp) :
    merge_rows (a ++ b) = merge_rows a ++ merge_rows b := by
  simp [merge_rows, List.filterMap_append]

theorem build_data_ok {mapper : Row → String → Except PyError (Option Value)}
    {g : String → Option Value} {record : Row} :
    ∀ cols : List String, (∀ c ∈ cols, mapper record c = .ok (g c)) →
      build_data mapper record cols = .ok (pure_projection g cols) := by
  intro cols
  induction cols with
  | nil => intro _; rfl
  | cons c cs ih =>
    intro h
    have hrest := ih (fun x hx => h x (by simp [hx]))
    simp only [build_data, h c (List.mem_cons_self c cs)]
    cases hgc : g c with
    | none => simp [pure_projection, List.filterMap_cons, hgc, hrest]
    | some v =>
      simp only [hrest, pure_projection, List.filterMap_cons, hgc, Option.map_some']

theorem table_import_loop_step_merge {model : String} {columns : List String}
    {mapper : Row → String → Except PyError (Option Value)} {r : Row} {d : DestRow}
    (hb : build_data mapper r columns = .ok d) (rest : List Row) (st : LoopState)
    (h10 : ¬ st.unflushed_rows + 1 = 10000) :
    table_import_loop okBackend model true columns mapper (r :: rest) st
      = table_import_loop okBackend model true columns mapper rest
        { ops := st.ops ++ [SessionOp.mergeOp model d],
          data_to_insert := st.data_to_insert,
          unflushed_rows := st.unflushed_rows + 1 } := by
  simp [table_import_loop, hb, emit, okBackend, h10]

theorem table_import_loop_step_merge_flush {model : String} {columns : List String}
    {mapper : Row → String → Except PyError (Option Value)} {r : Row} {d : DestRow}
    (hb : build_data mapper r columns = .ok d) (rest : List Row) (st : LoopState)
    (h10 : st.unflushed_rows + 1 = 10000) :
    table_import_loop okBackend model true columns mapper (r :: rest) st
      = table_import_loop okBackend model true columns mapper rest
        { ops := st.ops ++ [SessionOp.mergeOp model d, SessionOp.flushOp],
          data_to_insert := st.data_to_insert,
          unflushed_rows := 0 } := by
  simp [table_import_loop, hb, emit, okBackend, h10]

theorem table_import_loop_step_buffer {model : String} {columns : List String}
    {mapper : Row → String → Except PyError (Option Value)} {r : Row} {d : DestRow}
    (hb : build_data mapper r columns = .ok d) (rest : List Row) (st : LoopState)
    (h10 : ¬ st.unflushed_rows + 1 = 10000) :
    table_import_loop okBackend model false columns mapper (r :: rest) st
      = table_import_loop okBackend model false columns mapper rest
        { ops := st.ops,
          data_to_insert := st.data_to_insert ++ [d],
          unflushed_rows := st.unflushed_rows + 1 } := by
  simp [table_import_loop, hb, emit, okBackend, h10]

theorem table_import_loop_step_buffer_flush {model : String} {columns : List String}
    {mapper : Row → String → Except PyError (Option Value)} {r : Row} {d : DestRow}
    (hb : build_data mapper r columns = .ok d) (rest : List Row) (st : LoopState)
    (h10 : st.unflushed_rows + 1 = 10000) :
    table_import_loop okBackend model false columns mapper (r :: rest) st
      = table_import_loop okBackend model false columns mapper rest
        { ops := st.ops ++ [SessionOp.bulkInsert model (st.data_to_insert ++ [d]),
            SessionOp.flushOp],
          data_to_insert := [],
          unflushed_rows := 0 } := by
  simp [table_import_loop, hb, emit, okBackend, h10]

theorem rows_written_eq_merge_rows {ops : List SessionOp} (h : bulk_sizes ops = []) :
    rows_written ops = merge_rows ops := by
  induction ops with
  | nil => rfl
  | cons op rest ih =>
    cases op with
    | bulkInsert m rows => simp [bulk_sizes] at h
    | mergeOp m row =>
      simp only [bulk_sizes, List.filterMap_cons] at h
      simp [rows_written, merge_rows, List.filterMap_cons, ih h]
    | flushOp =>
      simp only [bulk_sizes, List.filterMap_cons] at h
      simp [rows_written, merge_rows, List.filterMap_cons, ih h]

theorem table_import_loop_ok {model : String} {merge : Bool} {columns : List String}
    {mapper : Row → String → Except PyError (Option Value)} {g : Row → String → Option Value} :
    ∀ (records : List Row) (st : LoopState),
      (∀ r ∈ records, ∀ c ∈ columns, mapper r c = .ok (g r c)) →
      ∃ st', table_import_loop okBackend model merge columns mapper records st = (none, st') ∧
        (merge = false →
          rows_written st'.ops ++ st'.data_to_insert
            = rows_written st.ops ++ st.data_to_insert
              ++ records.map (fun r => pure_projection (g r) columns)) ∧
        (merge = true → st'.data_to_insert = st.data_to_insert ∧
          bulk_sizes st'.ops = bulk_sizes st.ops ∧
          merge_rows st'.ops = merge_rows st.ops
            ++ records.map (fun r => pure_projection (g r) columns)) ∧
        (merge = false → merge_rows st'.ops = merge_rows st.ops) := by
  intro records
  induction records with
  | nil =>
    intro st _
    exact ⟨st, rfl, fun _ => by simp, fun _ => ⟨rfl, rfl, by simp⟩, fun _ => rfl⟩
  | cons r rest ih =>
    intro st h
    have hb : build_data mapper r columns = .ok (pure_projection (g r) columns) :=
      build_data_ok columns (fun c hc => h r (by simp) c hc)
    have hrest : ∀ x ∈ rest, ∀ c ∈ columns, mapper x c = .ok (g x c) :=
      fun x hx c hc => h x (by simp [hx]) c hc
    cases merge with
    | true =>
      by_cases h10 : st.unflushed_rows + 1 = 10000
      · obtain ⟨st', heq, hrows, hm1, hm2⟩ := ih
          { ops := st.ops ++ [SessionOp.mergeOp model (pure_projection (g r) columns),
              SessionOp.flushOp],
            data_to_insert := st.data_to_insert,
            unflushed_rows := 0 } hrest
        refine ⟨st', by rw [table_import_loop_step_merge_flush hb rest st h10]; exact heq,
          fun hcon => by simp at hcon, ?_, fun hcon => by simp at hcon⟩
        intro _
        obtain ⟨ha, hbz, hc⟩ := hm1 rfl
        refine ⟨by simpa using ha, ?_, ?_⟩
        · rw [hbz]
          simp [bulk_sizes_append, bulk_sizes]
        · rw [hc]
          simp [merge_rows_append, merge_rows]
      · obtain ⟨st', heq, hrows, hm1, hm2⟩ := ih
          { ops := st.ops ++ [SessionOp.mergeOp model (pure_projection (g r) columns)],
            data_to_insert := st.data_to_insert,
            unflushed_rows := st.unflushed_rows + 1 } hrest
        refine ⟨st', by rw [table_import_loop_step_merge hb rest st h10]; exact heq,
          fun hcon => by simp at hcon, ?_, fun hcon => by simp at hcon⟩
        intro _
        obtain ⟨ha, hbz, hc⟩ := hm1 rfl
        refine ⟨by simpa using ha, ?_, ?_⟩
        · rw [hbz]
          simp [bulk_sizes_append, bulk_sizes]
        · rw [hc]
          simp [merge_rows_append, merge_rows]
    | false =>
      by_cases h10 : st.unflushed_rows + 1 = 10000
      · obtain ⟨st', heq, hrows, hm1, hm2⟩ := ih
          { ops := st.ops ++ [SessionOp.bulkInsert model (st.data_to_insert ++
              [pure_projection (g r) columns]), SessionOp.flushOp],
            data_to_insert := [],
            unflushed_rows := 0 } hrest
        refine ⟨st', by rw [table_import_loop_step_buffer_flush hb rest st h10]; exact heq,
          ?_, fun hcon => by simp at hcon, ?_⟩
        · intro _
          rw [hrows rfl]
          simp [rows_written_append, rows_written]
        · intro _
          rw [hm2 rfl]
          simp [merge_rows_append, merge_rows]
      · obtain ⟨st', heq, hrows, hm1, hm2⟩ := ih
          { ops := st.ops,
            data_to_insert := st.data_to_insert ++ [pure_projection (g r) columns],
            unflushed_rows := st.unflushed_rows + 1 } hrest
        refine ⟨st', by rw [table_import_loop_step_buffer hb rest st h10]; exact heq,
          ?_, fun hcon => by simp at hcon, ?_⟩
        · intro _
          rw [hrows rfl]
          simp
        · intro _
          exact hm2 rfl

theorem table_import_loop_sizes {model : String} {columns : List String}
    {mapper : Row → String → Except PyError (Option Value)} {g : Row → String → Option Value} :
    ∀ (records : List Row) (st : LoopState),
      (∀ r ∈ records, ∀ c ∈ columns, mapper r c = .ok (g r c)) →
      st.data_to_insert.length ≤ st.unflushed_rows →
      st.unflushed_rows < 10000 →
      ∃ st', table_import_loop okBackend model false columns mapper records st = (none, st') ∧
        (bulk_sizes st'.ops).sum + st'.data_to_insert.length
          = (bulk_sizes st.ops).sum + st.data_to_insert.length + records.length ∧
        (∀ s ∈ bulk_sizes st'.ops, s ∈ bulk_sizes st.ops ∨ s ≤ 10000) ∧
        st'.data_to_insert.length ≤ st'.unflushed_rows ∧
        st'.unflushed_rows < 10000 := by
  intro records
  induction records with
  | nil =>
    intro st _ hbuf hu
    exact ⟨st, rfl, by simp, fun s hs => Or.inl hs, hbuf, hu⟩
  | cons r rest ih =>
    intro st h hbuf hu
    have hb : build_data mapper r columns = .ok (pure_projection (g r) columns) :=
      build_data_ok columns (fun c hc => h r (by simp) c hc)
    have hrest : ∀ x ∈ rest, ∀ c ∈ columns, mapper x c = .ok (g x c) :=
      fun x hx c hc => h x (by simp [hx]) c hc
    by_cases h10 : st.unflushed_rows + 1 = 10000
    · obtain ⟨st', heq, hsum, hle, hb2, hu2⟩ := ih
        { ops := st.ops ++ [SessionOp.bulkInsert model (st.data_to_insert ++
            [pure_projection (g r) columns]), SessionOp.flushOp],
          data_to_insert := [],
          unflushed_rows := 0 } hrest (by simp) (by norm_num)
      refine ⟨st', by rw [table_import_loop_step_buffer_flush hb rest st h10]; exact heq,
        ?_, ?_, hb2, hu2⟩
      · rw [hsum]
        simp only [bulk_sizes_append, List.sum_append, List.length_nil]
        simp [bulk_sizes, List.length_append]
        omega
      · intro s hs
        rcases hle s hs with hin | hle10
        · rw [bulk_sizes_append] at hin
          rcases List.mem_append.mp hin with hin1 | hin2
          · exact Or.inl hin1
          · right
            simp [bulk_sizes, List.length_append] at hin2
            omega
        · exact Or.inr hle10
    · obtain ⟨st', heq, hsum, hle, hb2, hu2⟩ := ih
        { ops := st.ops,
          data_to_insert := st.data_to_insert ++ [pure_projection (g r) columns],
          unflushed_rows := st.unflushed_rows + 1 } hrest
        (by simp [List.length_append]; omega) (by simp; omega)
      refine ⟨st', by rw [table_import_loop_step_buffer hb rest st h10]; exact heq,
        ?_, hle, hb2, hu2⟩
      rw [hsum]
      simp [List.length_append]
      omega

theorem table_import_ok_rows (self : ImportSelf) (model : String)
    (mapper : Row → String → Except PyError (Option Value))
    (table_mapper : Option (List Row) → List Row) (u0 : Nat)
    (g : Row → String → Option Value)
    (hmap : ∀ r ∈ table_mapper (self.source.get_class model),
      ∀ c ∈ dest_columns self model, mapper r c = .ok (g r c)) :
    (table_import self okBackend model mapper table_mapper u0).1 = none ∧
    rows_written (table_import self okBackend model mapper table_mapper u0).2.1
      = (table_mapper (self.source.get_class model)).map
          (fun r => pure_projection (g r) (dest_columns self model)) ∧
    (merge_models.contains model = true →
      bulk_sizes (table_import self okBackend model mapper table_mapper u0).2.1 = [] ∧
      merge_rows (table_import self okBackend model mapper table_mapper u0).2.1
        = (table_mapper (self.source.get_class model)).map
            (fun r => pure_projection (g r) (dest_columns self model))) ∧
    (merge_models.contains model = false →
      merge_rows (table_import self okBackend model mapper table_mapper u0).2.1 = []) := by
  obtain ⟨st', heq, hrowsF, hmT, hmF⟩ :=
    @table_import_loop_ok model (merge_models.contains model) (dest_columns self model)
      mapper g (table_mapper (self.source.get_class model))
      { ops := [], data_to_insert := [], unflushed_rows := u0 } hmap
  cases hc : merge_models.contains model with
  | true =>
    rw [hc] at heq hmT
    obtain ⟨hdata, hbulk, hmerge⟩ := hmT rfl
    have hres : table_import self okBackend model mapper table_mapper u0
        = (none, st'.ops, st'.unflushed_rows) := by
      simp only [table_import, hc, heq]
      simp
    rw [hres]
    have hbulk0 : bulk_sizes st'.ops = [] := by simpa [bulk_sizes] using hbulk
    have hmerge0 : merge_rows st'.ops
        = (table_mapper (self.source.get_class model)).map
            (fun r => pure_projection (g r) (dest_columns self model)) := by
      simpa [merge_rows] using hmerge
    refine ⟨rfl, ?_, fun _ => ⟨hbulk0, hmerge0⟩, fun hcon => ?_⟩
    · rw [rows_written_eq_merge_rows hbulk0]
      exact hmerge0
    · simp at hcon
  | false =>
    rw [hc] at heq hrowsF hmF
    have hrows : rows_written st'.ops ++ st'.data_to_insert
        = (table_mapper (self.source.get_class model)).map
            (fun r => pure_projection (g r) (dest_columns self model)) := by
      simpa [rows_written] using hrowsF rfl
    have hmerge : merge_rows st'.ops = [] := by simpa [merge_rows] using hmF rfl
    by_cases hd : st'.data_to_insert = []
    · have hres : table_import self okBackend model mapper table_mapper u0
          = (none, st'.ops, st'.unflushed_rows) := by
        simp only [table_import, hc, heq]
        simp [hd]
      rw [hres]
      refine ⟨rfl, ?_, fun hcon => ?_, fun _ => hmerge⟩
      · rw [← hrows, hd]
        simp
      · simp at hcon
    · have hres : table_import self okBackend model mapper table_mapper u0
          = (none, st'.ops ++ [SessionOp.bulkInsert model st'.data_to_insert],
             st'.unflushed_rows) := by
        simp only [table_import, hc, heq]
        simp [hd, emit, okBackend]
      rw [hres]
      refine ⟨rfl, ?_, fun hcon => ?_, fun _ => ?_⟩
      · rw [rows_written_append, ← hrows]
        simp [rows_written]
      · simp at hcon
      · rw [merge_rows_append, hmerge]
        simp [merge_rows]

theorem pure_projection_lookup_not_mem {g : String → Option Value} :
    ∀ {cols : List String} {c : String}, c ∉ cols →
      (pure_projection g cols).lookup c = none := by
  intro cols
  induction cols with
  | nil => intro c _; rfl
  | cons a cs ih =>
    intro c hc
    have hca : (c == a) = false := by
      simp only [beq_eq_false_iff_ne, ne_eq]
      intro h
      exact hc (by simp [h])
    have hccs : c ∉ cs := fun h => hc (by simp [h])
    unfold pure_projection
    rw [List.filterMap_cons]
    cases g a with
    | none => exact ih hccs
    | some v =>
      simp only [Option.map_some']
      rw [List.lookup_cons]
      simp only [hca]
      exact ih hccs

theorem pure_projection_lookup {g : String → Option Value} :
    ∀ {cols : List String}, cols.Nodup → ∀ {c : String}, c ∈ cols →
      (pure_projection g cols).lookup c = g c := by
  intro cols
  induction cols with
  | nil => intro _ c hc; cases hc
  | cons a cs ih =>
    intro hnodup c hc
    obtain ⟨hna, hnodup'⟩ := List.nodup_cons.mp hnodup
    rcases List.mem_cons.mp hc with hceq | hccs
    · subst hceq
      unfold pure_projection
      rw [List.filterMap_cons]
      cases hgc : g c with
      | none =>
        exact pure_projection_lookup_not_mem hna
      | some v =>
        simp only [Option.map_some']
        rw [List.lookup_cons]
        simp
    · have hca : (c == a) = false := by
        simp only [beq_eq_false_iff_ne, ne_eq]
        intro h
        subst h
        exact hna hccs
      unfold pure_projection
      rw [List.filterMap_cons]
      cases g a with
      | none => exact ih hnodup' hccs
      | some v =>
        simp only [Option.map_some']
        rw [List.lookup_cons]
        simp only [hca]
        exact ih hnodup' hccs

theorem pure_projection_keys {g : String → Option Value} {cols : List String} :
    ∀ p ∈ pure_projection g cols, p.1 ∈ cols := by
  intro p hp
  unfold pure_projection at hp
  rw [List.mem_filterMap] at hp
  obtain ⟨c, hc, he⟩ := hp
  cases hgc : g c with
  | none => rw [hgc] at he; cases he
  | some v =>
    rw [hgc] at he
    simp only [Option.map_some', Option.some_inj] at he
    rw [← he]
    exact hc

/-- C4.  Importing an entity type with no mapping rule copies the source
rows: exactly one destination row per source row, whose lookup of every
non-surrogate destination column equals the source row's value for it (a
`None`/missing source value leaves the column absent so the destination
default applies); only filtered (non auto-integer-primary-key) columns are
ever supplied, and the value of an auto-incrementing integer primary-key
column is never supplied.  For `ContentNode` under the base
`ChannelImport.schema_mapping`, every destination row carries the single
allocated tree id in its `tree_id` column. -/
theorem table_import_roundtrip (self : ImportSelf) (model : String) (u0 u1 : Nat)
    (records cnRecords : List Row) (tid : Int)
    (hsm : self.schema_mapping.lookup model = none)
    (hA : base_table_mapper (self.source.get_class model) = records)
    (hAnodup : (dest_columns self model).Nodup)
    (hnames : ((self.destColumns model).map (·.name)).Nodup)
    (hsmCN : self.schema_mapping.lookup "ContentNode"
      = ChannelImport_schema_mapping.lookup "ContentNode")
    (hCN : base_table_mapper (self.source.get_class "ContentNode") = cnRecords)
    (hmeth : self.methods.lookup "get_tree_id" = some (get_tree_id tid))
    (hnoattr : ∀ r ∈ cnRecords, r.hasattr "get_tree_id" = false)
    (htc : "tree_id" ∈ dest_columns self "ContentNode")
    (hCNnodup : (dest_columns self "ContentNode").Nodup) :
    (table_import self okBackend model
        (generate_row_mapper self (((self.schema_mapping.lookup model).getD
          ⟨none, none⟩).per_row)) base_table_mapper u0).1 = none ∧
    (rows_written (table_import self okBackend model
        (generate_row_mapper self (((self.schema_mapping.lookup model).getD
          ⟨none, none⟩).per_row)) base_table_mapper u0).2.1).length = records.length ∧
    (∀ i, i < records.length → ∀ c ∈ dest_columns self model,
      ((rows_written (table_import self okBackend model
          (generate_row_mapper self (((self.schema_mapping.lookup model).getD
            ⟨none, none⟩).per_row)) base_table_mapper u0).2.1).getD i []).lookup c
        = (records.getD i ⟨[]⟩).getattr c) ∧
    (∀ row ∈ rows_written (table_import self okBackend model
        (generate_row_mapper self (((self.schema_mapping.lookup model).getD
          ⟨none, none⟩).per_row)) base_table_mapper u0).2.1,
      (∀ p ∈ row, p.1 ∈ dest_columns self model) ∧
      ∀ cd ∈ self.destColumns model, column_not_auto_integer_pk cd = false →
        row.lookup cd.name = none) ∧
    (table_import self okBackend "ContentNode"
        (generate_row_mapper self (((self.schema_mapping.lookup "ContentNode").getD
          ⟨none, none⟩).per_row)) base_table_mapper u1).1 = none ∧
    (rows_written (table_import self okBackend "ContentNode"
        (generate_row_mapper self (((self.schema_mapping.lookup "ContentNode").getD
          ⟨none, none⟩).per_row)) base_table_mapper u1).2.1).length = cnRecords.length ∧
    (∀ row ∈ rows_written (table_import self okBackend "ContentNode"
        (generate_row_mapper self (((self.schema_mapping.lookup "ContentNode").getD
          ⟨none, none⟩).per_row)) base_table_mapper u1).2.1,
      row.lookup "tree_id" = some (.vint tid)) := by
  have hred : (((self.schema_mapping.lookup model).getD ⟨none, none⟩).per_row) = none := by
    rw [hsm]
    rfl
  have hredCN : (((self.schema_mapping.lookup "ContentNode").getD ⟨none, none⟩).per_row)
      = some [("tree_id", "get_tree_id")] := by
    rw [hsmCN]
    rfl
  rw [hred, hredCN]
  have hobtA := table_import_ok_rows self model (generate_row_mapper self none)
    base_table_mapper u0 (fun r c => r.getattr c) (fun r _ c _ => rfl)
  obtain ⟨hA1, hA2, _, _⟩ := hobtA
  rw [hA] at hA2
  have hmapB : ∀ r ∈ base_table_mapper (self.source.get_class "ContentNode"),
      ∀ c ∈ dest_columns self "ContentNode",
      generate_row_mapper self (some [("tree_id", "get_tree_id")]) r c
        = .ok ((fun c => if c = "tree_id" then some (Value.vint tid) else r.getattr c) c) := by
    intro r hr c _
    rw [hCN] at hr
    by_cases hct : c = "tree_id"
    · subst hct
      simp only [generate_row_mapper, Option.getD_some]
      rw [List.lookup_cons]
      simp only [beq_self_eq_true]
      simp only [hnoattr r hr]
      rw [hmeth]
      simp [get_tree_id]
    · simp only [generate_row_mapper, Option.getD_some, if_neg hct]
      rw [List.lookup_cons]
      have : (c == "tree_id") = false := by
        simp only [beq_eq_false_iff_ne, ne_eq]
        exact hct
      simp only [this]
      rfl
  have hobtB := table_import_ok_rows self "ContentNode"
    (generate_row_mapper self (some [("tree_id", "get_tree_id")]))
    base_table_mapper u1
    (fun r c => if c = "tree_id" then some (Value.vint tid) else r.getattr c) hmapB
  obtain ⟨hB1, hB2, _, _⟩ := hobtB
  rw [hCN] at hB2
  refine ⟨hA1, by rw [hA2]; simp, ?_, ?_, ?_, ?_, ?_⟩
  · intro i hi c hc
    rw [hA2]
    rw [List.getD_eq_getElem?_getD, List.getElem?_eq_getElem (by simpa using hi)]
    simp only [List.getElem_map, Option.getD_some]
    rw [pure_projection_lookup hAnodup hc]
    rw [List.getD_eq_getElem?_getD, List.getElem?_eq_getElem hi]
    rfl
  · intro row hrow
    rw [hA2] at hrow
    rw [List.mem_map] at hrow
    obtain ⟨r, _, hre⟩ := hrow
    subst hre
    refine ⟨fun p hp => pure_projection_keys p hp, ?_⟩
    intro cd hcd hcdf
    apply pure_projection_lookup_not_mem
    intro hmem
    unfold dest_columns at hmem
    rw [List.mem_map] at hmem
    obtain ⟨cd', hcd', hname⟩ := hmem
    rw [List.mem_filter] at hcd'
    have : cd' = cd := by
      have hinj := List.inj_on_of_nodup_map hnames
      exact hinj hcd'.1 hcd hname
    rw [this] at hcd'
    rw [hcdf] at hcd'
    simp at hcd'
  · exact hB1
  · rw [hB2]; simp
  · intro row hrow
    rw [hB2] at hrow
    rw [List.mem_map] at hrow
    obtain ⟨r, _, hre⟩ := hrow
    subst hre
    rw [pure_projection_lookup hCNnodup htc]
    simp

theorem batches_ge_two {l : List Nat} (hs : ∀ s ∈ l, s ≤ 10000) (hgt : 10000 < l.sum) :
    2 ≤ l.length := by
  rcases l with _ | ⟨a, _ | ⟨b, t⟩⟩
  · simp at hgt
  · have := hs a (by simp)
    simp at hgt
    omega
  · simp only [List.length_cons]
    omega

/-- C7.  The `unflushed_rows` counter is shared across entity types:
`table_import` both receives and returns it, and `import_channel_data`
threads the returned value into the next entity type's call.  For a
non-merge entity type imported with any starting counter below the
threshold, the run succeeds, the bulk-insert sizes total exactly the number
of source rows, every bulk insert carries at most 10000 rows, more than
10000 source rows force at least two bulk inserts, and the returned counter
is again below the threshold. -/
theorem table_import_flush_batching (self : ImportSelf) (model : String)
    (mapper : Row → String → Except PyError (Option Value))
    (table_mapper : Option (List Row) → List Row) (u0 : Nat)
    (g : Row → String → Option Value)
    (hm : merge_models.contains model = false)
    (hmap : ∀ r ∈ table_mapper (self.source.get_class model),
      ∀ c ∈ dest_columns self model, mapper r c = .ok (g r c))
    (hu : u0 < 10000) :
    (table_import self okBackend model mapper table_mapper u0).1 = none ∧
    (bulk_sizes (table_import self okBackend model mapper table_mapper u0).2.1).sum
      = (table_mapper (self.source.get_class model)).length ∧
    (∀ s ∈ bulk_sizes (table_import self okBackend model mapper table_mapper u0).2.1,
      s ≤ 10000) ∧
    (10000 < (table_mapper (self.source.get_class model)).length →
      2 ≤ (bulk_sizes (table_import self okBackend model mapper table_mapper u0).2.1).length) ∧
    (table_import self okBackend model mapper table_mapper u0).2.2 < 10000 := by
  obtain ⟨st', heq, hsum, hle, hbuf, hcnt⟩ :=
    @table_import_loop_sizes model (dest_columns self model) mapper g
      (table_mapper (self.source.get_class model))
      { ops := [], data_to_insert := [], unflushed_rows := u0 } hmap (by simp) (by simpa using hu)
  have hnil : bulk_sizes ([] : List SessionOp) = [] := rfl
  simp only [hnil, List.sum_nil, List.length_nil, List.not_mem_nil, false_or,
    Nat.zero_add] at hsum hle
  by_cases hd : st'.data_to_insert = []
  · have hres : table_import self okBackend model mapper table_mapper u0
        = (none, st'.ops, st'.unflushed_rows) := by
      simp only [table_import, hm, heq]
      simp [hd]
    rw [hres]
    rw [hd] at hsum
    simp only [List.length_nil] at hsum
    have hsum0 : (bulk_sizes st'.ops).sum
        = (table_mapper (self.source.get_class model)).length := by omega
    have hle0 : ∀ s ∈ bulk_sizes st'.ops, s ≤ 10000 := by
      intro s hs
      have := hle s hs
      omega
    refine ⟨rfl, hsum0, hle0, fun hN => ?_, hcnt⟩
    show 2 ≤ (bulk_sizes st'.ops).length
    exact batches_ge_two hle0 (by omega)
  · have hres : table_import self okBackend model mapper table_mapper u0
        = (none, st'.ops ++ [SessionOp.bulkInsert model st'.data_to_insert],
           st'.unflushed_rows) := by
      simp only [table_import, hm, heq]
      simp [hd, emit, okBackend]
    rw [hres]
    have hsizes : bulk_sizes (st'.ops ++ [SessionOp.bulkInsert model st'.data_to_insert])
        = bulk_sizes st'.ops ++ [st'.data_to_insert.length] := by
      rw [bulk_sizes_append]
      rfl
    rw [hsizes]
    have hsum0 : ((bulk_sizes st'.ops) ++ [st'.data_to_insert.length]).sum
        = (table_mapper (self.source.get_class model)).length := by
      rw [List.sum_append]
      simp
      omega
    have hle0 : ∀ s ∈ bulk_sizes st'.ops ++ [st'.data_to_insert.length], s ≤ 10000 := by
      intro s hs
      rcases List.mem_append.mp hs with h1 | h2
      · have := hle s h1
        omega
      · rw [List.mem_singleton] at h2
        omega
    refine ⟨rfl, hsum0, hle0, fun hN => ?_, hcnt⟩
    show 2 ≤ (bulk_sizes st'.ops ++ [st'.data_to_insert.length]).length
    exact batches_ge_two hle0 (by omega)

/-- C6.  For a merge-designated model, `table_import` never bulk-inserts:
the trace contains no bulk-insert call and the individually merged rows are
exactly the mapped source rows in order.  Applying the destination's
upsert-by-identity twice with the same identity (two imports of the same
entity) leaves a single row carrying the later import's values rather than
a duplicate. -/
theorem merge_model_rows_merged_individually (self : ImportSelf) (model : String)
    (mapper : Row → String → Except PyError (Option Value))
    (table_mapper : Option (List Row) → List Row) (u0 : Nat)
    (g : Row → String → Option Value)
    (hm : merge_models.contains model = true)
    (hmap : ∀ r ∈ table_mapper (self.source.get_class model),
      ∀ c ∈ dest_columns self model, mapper r c = .ok (g r c))
    (ident : String) (t : List DestRow) (r1 r2 : DestRow)
    (hid : r1.lookup ident = r2.lookup ident)
    (hno : ∀ r ∈ t, ¬ r.lookup ident = r1.lookup ident) :
    (table_import self okBackend model mapper table_mapper u0).1 = none ∧
    bulk_sizes (table_import self okBackend model mapper table_mapper u0).2.1 = [] ∧
    merge_rows (table_import self okBackend model mapper table_mapper u0).2.1
      = (table_mapper (self.source.get_class model)).map
          (fun r => pure_projection (g r) (dest_columns self model)) ∧
    upsert_by_identity ident (upsert_by_identity ident t r1) r2 = t ++ [r2] := by
  obtain ⟨h1, _, h3, _⟩ := table_import_ok_rows self model mapper table_mapper u0 g hmap
  refine ⟨h1, (h3 hm).1, (h3 hm).2, ?_⟩
  have hfirst : upsert_by_identity ident t r1 = t ++ [r1] := by
    unfold upsert_by_identity
    rw [if_neg]
    intro hany
    rw [List.any_eq_true] at hany
    obtain ⟨r, hr, hr2⟩ := hany
    rw [decide_eq_true_eq] at hr2
    exact hno r hr hr2
  rw [hfirst]
  unfold upsert_by_identity
  rw [if_pos]
  · rw [List.map_append]
    have hmapt : t.map (fun r => if r.lookup ident = r2.lookup ident then r2 else r) = t := by
      have hcongr : ∀ r ∈ t, (if r.lookup ident = r2.lookup ident then r2 else r) = id r := by
        intro r hr
        rw [if_neg]
        · rfl
        · rw [← hid]
          exact hno r hr
      rw [List.map_congr_left hcongr]
      exact List.map_id t
    rw [hmapt]
    simp [hid]
  · rw [List.any_eq_true]
    refine ⟨r1, by simp, ?_⟩
    rw [decide_eq_true_eq]
    exact hid

/-- C5.  The row mapper resolves one destination column of one source row:
no rule → the column is read directly off the record (absent when the record
lacks it); a rule naming another attribute of the record → that attribute's
value verbatim; a rule naming a method of the import class → the method is
invoked with the record; a rule matching neither → `AttributeError`
(`InvalidMappingConfiguration`). -/
theorem generate_row_mapper_cases (self : ImportSelf) (ms : List (String × String))
    (record : Row) :
    (∀ column, ms.lookup column = none →
      generate_row_mapper self (some ms) record column = .ok (record.getattr column)) ∧
    (∀ column col_map, ms.lookup column = some col_map → record.hasattr col_map = true →
      generate_row_mapper self (some ms) record column = .ok (record.getattr col_map)) ∧
    (∀ column col_map f, ms.lookup column = some col_map → record.hasattr col_map = false →
      self.methods.lookup col_map = some f →
      generate_row_mapper self (some ms) record column = .ok (f record)) ∧
    (∀ column col_map, ms.lookup column = some col_map → record.hasattr col_map = false →
      self.methods.lookup col_map = none →
      generate_row_mapper self (some ms) record column
        = .error (.attributeError
            "Column mapping specified but no valid column name or method found")) ∧
    (∀ column, record.hasattr column = false → record.getattr column = none) := by
  refine ⟨?_, ?_, ?_, ?_, ?_⟩
  · intro column h
    simp [generate_row_mapper, h]
  · intro column col_map h hh
    simp [generate_row_mapper, h, hh]
  · intro column col_map f h hh hm
    simp [generate_row_mapper, h, hh, hm]
  · intro column col_map h hh hm
    simp [generate_row_mapper, h, hh, hm]
  · intro column h
    rw [Row.hasattr] at h
    rw [Row.getattr]
    rcases hx : record.attrs.lookup column with _ | v
    · rfl
    · rw [hx] at h
      simp at h

theorem generate_row_mapper_cases_witness :
    generate_row_mapper exSelf5 (some exMs5) exRec5 "x" = .ok (exRec5.getattr "x") ∧
    generate_row_mapper exSelf5 (some exMs5) exRec5 "b" = .ok (exRec5.getattr "a") ∧
    generate_row_mapper exSelf5 (some exMs5) exRec5 "c" = .ok (exMethod exRec5) ∧
    generate_row_mapper exSelf5 (some exMs5) exRec5 "d"
      = .error (.attributeError
          "Column mapping specified but no valid column name or method found") ∧
    exRec5.getattr "zz" = none := by
  have h := generate_row_mapper_cases exSelf5 exMs5 exRec5
  exact ⟨h.1 "x" rfl, h.2.1 "b" "a" rfl (by decide),
    h.2.2.1 "c" "m" exMethod rfl (by decide) rfl,
    h.2.2.2.1 "d" "nope" rfl (by decide) rfl,
    h.2.2.2.2 "zz" (by decide)⟩

theorem table_import_roundtrip_witness :
    (table_import exSelf okBackend "FooModel"
      (generate_row_mapper exSelf (((exSelf.schema_mapping.lookup "FooModel").getD
        ⟨none, none⟩).per_row)) base_table_mapper 0).1 = none ∧
    (rows_written (table_import exSelf okBackend "ContentNode"
      (generate_row_mapper exSelf (((exSelf.schema_mapping.lookup "ContentNode").getD
        ⟨none, none⟩).per_row)) base_table_mapper 0).2.1).length = cnRows.length :=
  have h := table_import_roundtrip exSelf "FooModel" 0 0 fooRows cnRows 7
    (by rfl) (by rfl) (by decide) (by decide) (by rfl) (by rfl) (by rfl)
    (by decide) (by decide) (by decide)
  ⟨h.1, h.2.2.2.2.2.1⟩

theorem merge_model_rows_merged_individually_witness :
    bulk_sizes (table_import exSelf okBackend "ContentTag"
      (generate_row_mapper exSelf none) base_table_mapper 0).2.1 = [] ∧
    upsert_by_identity "id" (upsert_by_identity "id" [] tagDest1) tagDest2
      = [] ++ [tagDest2] :=
  have h := merge_model_rows_merged_individually exSelf "ContentTag"
    (generate_row_mapper exSelf none) base_table_mapper 0
    (fun r c => r.getattr c) (by decide) (fun r _ c _ => rfl)
    "id" [] tagDest1 tagDest2 (by decide) (by decide)
  ⟨h.2.1, h.2.2.2⟩

theorem table_import_flush_batching_witness :
    (bulk_sizes (table_import exSelf okBackend "FooModel"
      (generate_row_mapper exSelf none) base_table_mapper 5).2.1).sum
      = (base_table_mapper (exSelf.source.get_class "FooModel")).length ∧
    (table_import exSelf okBackend "FooModel"
      (generate_row_mapper exSelf none) base_table_mapper 5).2.2 < 10000 :=
  have h := table_import_flush_batching exSelf "FooModel"
    (generate_row_mapper exSelf none) base_table_mapper 5
    (fun r c => r.getattr c) (by decide) (fun r _ c _ => rfl) (by decide)
  ⟨h.2.1, h.2.2.2.2⟩

theorem dedup_by_checksum_sublist : ∀ (l : List Row) (seen : List (Option Value)),
    (dedup_by_checksum l seen).Sublist l := by
  intro l
  induction l with
  | nil => intro seen; simp [dedup_by_checksum]
  | cons r rest ih =>
    intro seen
    by_cases hm : r.getattr "checksum" ∈ seen
    · simp only [dedup_by_checksum, if_pos hm]
      exact (ih seen).trans (List.sublist_cons_self r rest)
    · simp only [dedup_by_checksum, if_neg hm]
      exact List.Sublist.cons₂ r (ih _)

theorem dedup_by_checksum_keys : ∀ (l : List Row) (seen : List (Option Value)),
    (∀ k ∈ (dedup_by_checksum l seen).map (fun r => r.getattr "checksum"), k ∉ seen) ∧
    ((dedup_by_checksum l seen).map (fun r => r.getattr "checksum")).Nodup := by
  intro l
  induction l with
  | nil =>
    intro seen
    exact ⟨by simp [dedup_by_checksum], by simp [dedup_by_checksum]⟩
  | cons r rest ih =>
    intro seen
    by_cases hm : r.getattr "checksum" ∈ seen
    · simpa only [dedup_by_checksum, if_pos hm] using ih seen
    · have h2 := ih (r.getattr "checksum" :: seen)
      constructor
      · intro k hk
        simp only [dedup_by_checksum, if_neg hm, List.map_cons, List.mem_cons] at hk
        rcases hk with hk | hk
        · rw [hk]
          exact hm
        · intro hks
          exact h2.1 k hk (by simp [hks])
      · simp only [dedup_by_checksum, if_neg hm, List.map_cons, List.nodup_cons]
        refine ⟨?_, h2.2⟩
        intro hmem
        exact h2.1 _ hmem (by simp)

theorem dedup_by_checksum_covers : ∀ (l : List Row) (seen : List (Option Value)),
    ∀ r ∈ l, r.getattr "checksum" ∈ seen ∨
      r.getattr "checksum" ∈ (dedup_by_checksum l seen).map (fun x => x.getattr "checksum") := by
  intro l
  induction l with
  | nil => intro seen r hr; cases hr
  | cons a rest ih =>
    intro seen r hr
    by_cases hm : a.getattr "checksum" ∈ seen
    · rcases List.mem_cons.mp hr with hra | hrr
      · subst hra
        exact Or.inl hm
      · rcases ih seen r hrr with h | h
        · exact Or.inl h
        · right
          simpa [dedup_by_checksum, hm] using h
    · rcases List.mem_cons.mp hr with hra | hrr
      · subst hra
        right
        simp [dedup_by_checksum, hm]
      · rcases ih (a.getattr "checksum" :: seen) r hrr with h | h
        · rcases List.mem_cons.mp h with h1 | h2
          · right
            simp [dedup_by_checksum, hm, h1]
          · exact Or.inl h2
        · right
          simp only [dedup_by_checksum, if_neg hm, List.map_cons, List.mem_cons]
          exact Or.inr h

theorem dedup_by_checksum_first : ∀ (l : List Row) (seen : List (Option Value)),
    ∀ r ∈ dedup_by_checksum l seen,
      l.find? (fun x => decide (x.getattr "checksum" = r.getattr "checksum")) = some r := by
  intro l
  induction l with
  | nil =>
    intro seen r hr
    simp [dedup_by_checksum] at hr
  | cons a rest ih =>
    intro seen r hr
    by_cases hm : a.getattr "checksum" ∈ seen
    · simp only [dedup_by_checksum, if_pos hm] at hr
      have hkr := (dedup_by_checksum_keys rest seen).1 (r.getattr "checksum")
        (List.mem_map_of_mem _ hr)
      rw [List.find?_cons]
      have hne : (decide (a.getattr "checksum" = r.getattr "checksum")) = false := by
        simp only [decide_eq_false_iff_not]
        intro h
        exact hkr (h ▸ hm)
      simp only [hne]
      exact ih seen r hr
    · simp only [dedup_by_checksum, if_neg hm] at hr
      rcases List.mem_cons.mp hr with hra | hrr
      · subst hra
        rw [List.find?_cons]
        simp
      · have hkr := (dedup_by_checksum_keys rest (a.getattr "checksum" :: seen)).1
          (r.getattr "checksum") (List.mem_map_of_mem _ hrr)
        rw [List.find?_cons]
        have hne : (decide (a.getattr "checksum" = r.getattr "checksum")) = false := by
          simp only [decide_eq_false_iff_not]
          intro h
          exact hkr (by simp [h])
        simp only [hne]
        exact ih _ r hrr

/-- C8.  `generate_local_file_from_file` ignores the `SourceRecord` it is
handed and draws from the `File` table, emitting exactly one row per
distinct checksum: the output is a subsequence of the `File` rows (first-seen
order preserved), its checksums are pairwise distinct, every input checksum
is represented, and every emitted row is the first `File` row bearing its
checksum. -/
theorem generate_local_file_from_file_dedup (fileRows : List Row)
    (SourceRecord : Option (List Row)) :
    (∀ other : Option (List Row), generate_local_file_from_file fileRows SourceRecord
      = generate_local_file_from_file fileRows other) ∧
    (generate_local_file_from_file fileRows SourceRecord).Sublist fileRows ∧
    ((generate_local_file_from_file fileRows SourceRecord).map
      (fun r => r.getattr "checksum")).Nodup ∧
    (∀ r ∈ fileRows, r.getattr "checksum"
      ∈ (generate_local_file_from_file fileRows SourceRecord).map
          (fun x => x.getattr "checksum")) ∧
    (∀ r ∈ generate_local_file_from_file fileRows SourceRecord,
      fileRows.find? (fun x => decide (x.getattr "checksum" = r.getattr "checksum"))
        = some r) := by
  refine ⟨fun _ => rfl, dedup_by_checksum_sublist fileRows [],
    (dedup_by_checksum_keys fileRows []).2, ?_, dedup_by_checksum_first fileRows []⟩
  intro r hr
  rcases dedup_by_checksum_covers fileRows [] r hr with h | h
  · cases h
  · exact h

theorem generate_local_file_from_file_dedup_witness :
    ((generate_local_file_from_file exFileRows none).map
      (fun r => r.getattr "checksum")).Nodup ∧
    (∀ r ∈ generate_local_file_from_file exFileRows none,
      exFileRows.find? (fun x => decide (x.getattr "checksum" = r.getattr "checksum"))
        = some r) :=
  have h := generate_local_file_from_file_dedup exFileRows none
  ⟨h.2.2.1, h.2.2.2.2⟩

/-- C9 (code bug).  The dict `licenses` is initialised as an empty class
attribute of `NoVersionChannelImport` (line 303), and `get_license` mutates
it in place, so the cache survives from one import to the next.  Within
one import a repeated license id is served from the cache with a single
source query (first and last conjuncts), but a second import whose source
database holds a *different* license under the same id is served the first
one's cached record without its own source ever being queried (third
conjunct): a later import does not start with an empty cache. -/
theorem get_license_cache_shared_across_imports :
    get_license srcLicA [] (some 1) = (some licA, [(1, some licA)], 1) ∧
    get_license srcLicA [(1, some licA)] (some 1) = (some licA, [(1, some licA)], 0) ∧
    get_license srcLicB [(1, some licA)] (some 1) = (some licA, [(1, some licA)], 0) ∧
    srcLicB.lookup 1 = some licB ∧
    ¬ licA = licB ∧
    run_license_lookups srcLicA [some 1, some 1, none, some 1] [] = ([(1, some licA)], 1) := by
  refine ⟨by decide, by decide, by decide, by decide, by decide, by decide⟩

/-- C3 (code bug).  `mappings.get(min_version)` never raises `KeyError`, so
the `except KeyError` handler of `initialize_import_manager` is dead code:
for any unmapped version (future "100", dropped "0", or non-numeric
"bogus") the function binds `ImportClass` to `None` and fails with a
`TypeError` when calling it, instead of raising the errors the handler body
would classify (shown by `schema_version_error_branch`, the faithful
embedding of that dead handler). -/
theorem import_manager_version_dispatch_dead_branch :
    (import_manager_version_dispatch mappings "100" = .typeErrorNoneCall) ∧
    schema_version_error_branch CONTENT_SCHEMA_VERSION "100"
      = .futureSchemaError
          "Tried to import schema version, 100, which is not supported by this version of Kolibri." ∧
    (import_manager_version_dispatch mappings "0" = .typeErrorNoneCall) ∧
    schema_version_error_branch CONTENT_SCHEMA_VERSION "0"
      = .invalidSchemaVersionError "Tried to import unsupported schema version 0" ∧
    (import_manager_version_dispatch mappings "bogus" = .typeErrorNoneCall) ∧
    schema_version_error_branch CONTENT_SCHEMA_VERSION "bogus"
      = .invalidSchemaVersionError "Tried to import invalid schema version bogus" ∧
    (import_manager_version_dispatch mappings VERSION_2 = .importClass "ChannelImport") ∧
    (import_manager_version_dispatch mappings NO_VERSION
      = .importClass "NoVersionChannelImport") := by
  refine ⟨rfl, by decide, rfl, by decide, rfl, by decide, rfl, rfl⟩

/-- C1 (amended).  `import_channel_data` catches only `SQLAlchemyError`:
when the import fails with a store-level error (including a failing commit),
the transaction is rolled back — pending operations are discarded, committed
state is untouched — and the error is re-raised unchanged.  Any other
failure (the mapper's `AttributeError`) is re-raised unchanged with nothing
committed, but `session.rollback()` is not invoked for it. -/
theorem import_channel_data_error_handling (self : ImportSelf) (backend : Backend)
    (sess : Session) (e : PyError) (s' : Session)
    (h : import_channel_data self backend sess = (some e, s')) :
    s'.committed = sess.committed ∧
    (∀ m, e = .sqlalchemyError m → s'.pending = []) := by
  unfold import_channel_data at h
  rcases hr : import_models self backend self.content_models 0 [] with ⟨err, ops, u⟩
  rw [hr] at h
  cases err with
  | none =>
    by_cases hc : backend.commitFails
    · simp only [hc, if_true] at h
      rw [Prod.mk.injEq] at h
      obtain ⟨h1, h2⟩ := h
      rw [← h2]
      exact ⟨rfl, fun m _ => rfl⟩
    · simp only [hc, if_false] at h
      simp at h
  | some e0 =>
    cases e0 with
    | sqlalchemyError m0 =>
      simp only [] at h
      rw [Prod.mk.injEq] at h
      obtain ⟨h1, h2⟩ := h
      rw [← h2]
      exact ⟨rfl, fun m _ => rfl⟩
    | attributeError m0 =>
      simp only [] at h
      rw [Prod.mk.injEq] at h
      obtain ⟨h1, h2⟩ := h
      rw [← h2]
      refine ⟨rfl, fun m hm => ?_⟩
      injection h1 with h1e
      rw [← h1e] at hm
      cases hm

/-- C1 counterexample.  A failure during mapping (the second model's
`per_table` name resolves to no method, raising `AttributeError`) occurs
after the first model's row has already been merged into the session: the
exception propagates, but the session is *not* rolled back — the pending
write is still there — because only `SQLAlchemyError` is caught. -/
theorem import_channel_data_no_rollback_cx :
    (import_channel_data exSelfC1 okBackend { committed := [], pending := [] }).1
      = some (.attributeError "Table mapping specified but no valid method found") ∧
    (import_channel_data exSelfC1 okBackend { committed := [], pending := [] }).2.pending
      ≠ [] := by
  refine ⟨by decide, by decide⟩

theorem import_channel_data_error_handling_witness :
    ({ committed := [SessionOp.flushOp], pending := [] } : Session).committed
      = ({ committed := [SessionOp.flushOp],
           pending := [SessionOp.flushOp] } : Session).committed ∧
    (∀ m, PyError.sqlalchemyError "commit failed" = PyError.sqlalchemyError m →
      ({ committed := [SessionOp.flushOp], pending := [] } : Session).pending = []) := by
  exact import_channel_data_error_handling exSelfEmpty failCommitBackend
    { committed := [SessionOp.flushOp], pending := [SessionOp.flushOp] }
    (PyError.sqlalchemyError "commit failed")
    { committed := [SessionOp.flushOp], pending := [] } (by decide)
